import Mathlib

/-!
Shallow embedding of `src/bodaIncome.py` (MyPenny / Boda Boda Budget Tracker)
and verification of the frozen claims about it.

Conventions of the embedding:
* Python floats (currency amounts, balances) are modelled as `Rat`.
* Python `datetime.date` is modelled by the `Date` structure below; the
  proleptic-Gregorian ordinal and the ISO calendar are implemented exactly as
  in CPython's `datetime` module.
* Python dictionaries with fixed string keys are modelled as association
  lists (`List (String × Rat)`); `d[k] += v` raising `KeyError` for a missing
  key is modelled by an `Option`-returning update.
* Fallible code (raised `ValueError` / `IndexError` / `KeyError`) returns
  `Except PyErr` or `Option`.
-/

set_option maxRecDepth 100000

namespace Boda

/-- Errors raised by the Python code (ValueError subcases kept separate). -/
inductive PyErr where
  | invalidDate
  | futureDate
  | invalidAmount
  | invalidCategory
  | invalidPlatform
  | invalidPaymentMode
  | indexError
  | valueError
deriving DecidableEq, Repr

/-- A calendar date, mirroring `datetime.date` (year-month-day). -/
structure Date where
  year : Nat
  month : Nat
  day : Nat
deriving DecidableEq, Repr

/-- Gregorian leap-year test. -/
def leapYear (y : Nat) : Bool :=
  y % 4 = 0 && (y % 100 ≠ 0 || y % 400 = 0)

/-- Number of days in a month (`calendar` semantics). -/
def daysInMonth (y m : Nat) : Nat :=
  if m = 2 then (if leapYear y then 29 else 28)
  else if m = 4 || m = 6 || m = 9 || m = 11 then 30
  else 31

/-- Days in the months strictly before month `m` of year `y`. -/
def daysBeforeMonth (y : Nat) : Nat → Nat
  | 0 => 0
  | 1 => 0
  | m + 1 => daysBeforeMonth y m + daysInMonth y m

/-- Days in all years strictly before year `y` (proleptic Gregorian),
matching CPython's `_days_before_year`. -/
def daysBeforeYear (y : Nat) : Nat :=
  let n := y - 1
  365 * n + n / 4 - n / 100 + n / 400

/-- `date.toordinal()`: day 1 is January 1 of year 1. -/
def Date.toOrdinal (d : Date) : Nat :=
  daysBeforeYear d.year + daysBeforeMonth d.year d.month + d.day

/-- Ordinal (as `Int`) of the Monday starting ISO week 1 of year `y`,
matching CPython's `_isoweek1monday`. -/
def isoweek1monday (y : Nat) : Int :=
  let firstday : Int := (daysBeforeYear y : Int) + 1
  let firstweekday : Int := (firstday + 6) % 7
  let week1monday := firstday - firstweekday
  if firstweekday > 3 then week1monday + 7 else week1monday

/-- `date.isocalendar()`: (ISO year, ISO week number, ISO weekday),
translated from CPython's `datetime.date.isocalendar`. -/
def Date.isocalendar (d : Date) : Nat × Nat × Nat :=
  let today : Int := (d.toOrdinal : Int)
  let year := d.year
  let diff := today - isoweek1monday year
  let week := diff / 7
  let day := diff % 7
  if week < 0 then
    let year1 := year - 1
    let diff1 := today - isoweek1monday year1
    (year1, (diff1 / 7).toNat + 1, (diff1 % 7).toNat + 1)
  else if week ≥ 52 && today ≥ isoweek1monday (year + 1) then
    (year + 1, 1, day.toNat + 1)
  else
    (year, week.toNat + 1, day.toNat + 1)

/-- The ISO week number (`isocalendar()[1]`) of a date. -/
def Date.isoWeekNum (d : Date) : Nat := d.isocalendar.2.1

/-- The ISO year (`isocalendar()[0]`) of a date. -/
def Date.isoYear (d : Date) : Nat := d.isocalendar.1

/-- Strict lexicographic comparison of dates (Python `date` ordering). -/
def dateLt (a b : Date) : Bool :=
  a.year < b.year ||
    (a.year = b.year && (a.month < b.month ||
      (a.month = b.month && a.day < b.day)))

/-- Non-strict date comparison. -/
def dateLe (a b : Date) : Bool :=
  dateLt a b || a = b

/-- Zero-pad a numeral to two digits (Python `:02d`). -/
def pad2 (n : Nat) : String :=
  if n < 10 then "0" ++ toString n else toString n

/-- Zero-pad a numeral to four digits (as `date.isoformat` pads the year). -/
def pad4 (n : Nat) : String :=
  if n < 10 then "000" ++ toString n
  else if n < 100 then "00" ++ toString n
  else if n < 1000 then "0" ++ toString n
  else toString n

/-- `date.isoformat()`: the `YYYY-MM-DD` string of a date. -/
def Date.isoformat (d : Date) : String :=
  pad4 d.year ++ "-" ++ pad2 d.month ++ "-" ++ pad2 d.day

/-- The per-ISO-week bucket key `f"{week_num[0]}-W{week_num[1]:02d}"`. -/
def weekKey (d : Date) : String :=
  toString d.isocalendar.1 ++ "-W" ++ pad2 d.isocalendar.2.1

/-! ## String helpers (Python `str` methods, over `List Char`) -/

/-- Python whitespace characters recognised by `str.strip()` (ASCII range). -/
def isPySpace (c : Char) : Bool :=
  c = ' ' || c = '\t' || c = '\n' || c = '\r' || c = '\x0b' || c = '\x0c'

/-- Python `str.strip()`. -/
def pyStrip (s : String) : String :=
  String.mk (((s.data.dropWhile isPySpace).reverse.dropWhile isPySpace).reverse)

/-- Python `str.lower()` (ASCII). -/
def pyLower (s : String) : String :=
  String.mk (s.data.map Char.toLower)

/-- Python `str.title()`: first letter of each alphabetic run uppercased,
the rest lowercased. -/
def pyTitleGo : Bool → List Char → List Char
  | _, [] => []
  | prev, c :: t =>
    if c.isAlpha then
      (if prev then c.toLower else c.toUpper) :: pyTitleGo true t
    else c :: pyTitleGo false t

/-- Python `str.title()`. -/
def pyTitle (s : String) : String :=
  String.mk (pyTitleGo false s.data)

/-- Python `str.startswith`. -/
def pyStartswith (s pre : String) : Bool :=
  pre.data.isPrefixOf s.data

/-- Substring containment (Python `in` on strings). -/
def listHasSub : List Char → List Char → Bool
  | pat, [] => pat.isEmpty
  | pat, c :: t => pat.isPrefixOf (c :: t) || listHasSub pat t

/-- Python `needle in haystack` for strings. -/
def pyContains (haystack needle : String) : Bool :=
  listHasSub needle.data haystack.data

/-- Split a character list on a separator character (Python `str.split(sep)`). -/
def splitOnChar (sep : Char) : List Char → List (List Char)
  | [] => [[]]
  | c :: t =>
    let r := splitOnChar sep t
    if c = sep then [] :: r
    else
      match r with
      | [] => [[c]]
      | h :: rt => (c :: h) :: rt

/-- Value of a list of decimal digit characters (most significant first). -/
def digitsVal (cs : List Char) : Nat :=
  cs.foldl (fun acc c => acc * 10 + (c.toNat - 48)) 0

/-! ## Ledger data model -/

/-- An income ledger entry, as built by `add_income`. -/
structure IncomeEntry where
  date : Date
  platform : String
  amount : Rat
  notes : String
  payment_mode : String
  transaction_code : String
deriving DecidableEq, Repr

/-- An expense or savings ledger entry, as built by
`add_expense` / `add_savings`. -/
structure CatEntry where
  date : Date
  category : String
  amount : Rat
  notes : String
  payment_mode : String
  transaction_code : String
deriving DecidableEq, Repr

/-- The `mpesa_details` record. -/
structure MpesaDetails where
  name : String
  phone : String
deriving DecidableEq, Repr

/-- The in-memory ledger document (the dictionary returned by `load_data`,
with all keys present). -/
structure Data where
  income : List IncomeEntry
  expenses : List CatEntry
  savings : List CatEntry
  expense_categories : List String
  savings_categories : List String
  savings_switch : Bool
  mpesa_details : MpesaDetails
deriving DecidableEq, Repr

/-! ## Balance reconciliation (`calculate_mpesa_balance`, `verify_mpesa_balance`) -/

/-- A transaction parsed out of an M-Pesa message (the dictionary returned by
`parse_mpesa_message`; `date` and `time` are the strings stored there). -/
structure MTrans where
  type : String
  transaction_code : String
  amount : Rat
  name : String
  phone : String
  date : String
  time : String
  balance : Rat
deriving DecidableEq, Repr

/-- `calculate_mpesa_balance`: running M-Pesa balance, summing M-Pesa-mode
income and subtracting M-Pesa-mode expenses and savings. -/
def calculate_mpesa_balance (data : Data) : Rat :=
  let balance : Rat :=
    data.income.foldl
      (fun b entry => if entry.payment_mode = "M-Pesa" then b + entry.amount else b) 0
  (data.expenses ++ data.savings).foldl
    (fun b entry => if entry.payment_mode = "M-Pesa" then b - entry.amount else b) balance

/-- `verify_mpesa_balance`: the claimed post-transaction balance must be
within ±10 of the computed expected balance. -/
def verify_mpesa_balance (transaction : MTrans) (data : Data) : Bool :=
  let mpesa_balance := calculate_mpesa_balance data
  let expected_balance :=
    if transaction.type = "income" then mpesa_balance + transaction.amount
    else mpesa_balance - transaction.amount
  if |expected_balance - transaction.balance| > 10 then false else true

/-- Specification-side channel balance: sum of the amounts of all
M-Pesa-mode income entries minus the amounts of all M-Pesa-mode expense and
savings entries (written with `filter`/`map`/`sum`, independent of the
fold in `calculate_mpesa_balance`). -/
def channelBalanceSpec (data : Data) : Rat :=
  ((data.income.filter (fun e => e.payment_mode = "M-Pesa")).map
      (fun e => e.amount)).sum
    - ((data.expenses.filter (fun e => e.payment_mode = "M-Pesa")).map
      (fun e => e.amount)).sum
    - ((data.savings.filter (fun e => e.payment_mode = "M-Pesa")).map
      (fun e => e.amount)).sum

/-! ## Dictionaries as association lists -/

/-- A Python dict with string keys and numeric values. -/
abbrev AList := List (String × Rat)

/-- A Python dict mapping bucket keys (dates / week keys) to inner dicts. -/
abbrev OuterMap := List (String × AList)

/-- Dictionary lookup (first occurrence of the key). -/
def lookupA {α : Type} : List (String × α) → String → Option α
  | [], _ => none
  | (k, v) :: t, key => if k = key then some v else lookupA t key

/-- Key-membership test (`key in d`). -/
def hasKeyA {α : Type} (m : List (String × α)) (key : String) : Bool :=
  (lookupA m key).isSome

/-- Numeric lookup with default 0 (used only to state properties). -/
def lookupV (m : AList) (key : String) : Rat :=
  (lookupA m key).getD 0

/-- The value under the key `"total"`. -/
def lookupT (m : AList) : Rat :=
  lookupV m "total"

/-- `d[key] += a`: fails (Python `KeyError`) when the key is absent. -/
def bump : AList → String → Rat → Option AList
  | [], _, _ => none
  | (k, v) :: t, key, a =>
    if k = key then some ((k, v + a) :: t)
    else (bump t key a).map (fun t2 => (k, v) :: t2)

/-- The two increments done for one entry:
`d["total"] += a` followed by `d[lbl] += a`. -/
def bump2 (b : AList) (lbl : String) (a : Rat) : Option AList :=
  (bump b "total" a).bind (fun b1 => bump b1 lbl a)

/-- Replace the value at a key by the image of a partial function
(fails when the key is absent or the function fails). -/
def modifyAtKey {α : Type} : List (String × α) → String → (α → Option α) → Option (List (String × α))
  | [], _, _ => none
  | (k, v) :: t, key, f =>
    if k = key then (f v).map (fun v2 => (k, v2) :: t)
    else (modifyAtKey t key f).map (fun t2 => (k, v) :: t2)

/-- `d[key] = v` (update or append). -/
def setKeyA : AList → String → Rat → AList
  | [], key, v => [(key, v)]
  | (k, w) :: t, key, v =>
    if k = key then (k, v) :: t else (k, w) :: setKeyA t key v

/-- `{cat: 0 for cat in keys}`. -/
def dictFromKeys (keys : List String) : AList :=
  keys.foldl (fun m k => if hasKeyA m k then m else m ++ [(k, 0)]) []

/-! ## The aggregation engine (`calculate_totals`) -/

/-- The fields of a ledger entry used by the `calculate_totals` loops
(for income the label is the platform, for expense/savings the category). -/
structure LoopItem where
  date : Date
  label : String
  amount : Rat
  payment_mode : String
deriving DecidableEq, Repr

/-- View of an income entry as a loop item whose label is the platform. -/
def IncomeEntry.item (e : IncomeEntry) : LoopItem :=
  ⟨e.date, e.platform, e.amount, e.payment_mode⟩

/-- View of an expense/savings entry as a loop item whose label is the category. -/
def CatEntry.item (e : CatEntry) : LoopItem :=
  ⟨e.date, e.category, e.amount, e.payment_mode⟩

/-- The three `continue` filters at the top of each `calculate_totals` loop:
an entry is kept iff it passes the (optional) exact-date, `(year, month)`
and `(year, ISO-week-number)` checks.  Note that the week filter compares
`entry_date.isocalendar()[1]` with the requested week number but
`entry_date.year` (the calendar year) with the requested year. -/
def matchesFilter (d : Date) (dateF : Option Date) (weekF monthF : Option (Nat × Nat)) : Bool :=
  (match dateF with
    | none => true
    | some dd => d = dd) &&
  (match monthF with
    | none => true
    | some m => d.year = m.1 && d.month = m.2) &&
  (match weekF with
    | none => true
    | some w => d.isoWeekNum = w.2 && d.year = w.1)

/-- The per-collection accumulator of `calculate_totals`: the grand-total
dict, the per-day buckets and the per-ISO-week buckets. -/
structure ColState where
  totals : AList
  daily : OuterMap
  weekly : OuterMap
deriving DecidableEq, Repr

/-- Create-if-absent followed by the two `+=` updates on one bucket map:
`if key not in m: m[key] = fresh` then `m[key]["total"] += a; m[key][lbl] += a`. -/
def bumpBucket (m : OuterMap) (key : String) (fresh : AList) (lbl : String) (a : Rat) :
    Option OuterMap :=
  let m1 := if hasKeyA m key then m else m ++ [(key, fresh)]
  modifyAtKey m1 key (fun b => bump2 b lbl a)

/-- The body of one `calculate_totals` loop iteration for an entry that
passed the filters (grand totals, then daily bucket, then weekly bucket). -/
def colStep (fresh : AList) (it : LoopItem) (cs : ColState) : Option ColState :=
  (bump2 cs.totals it.label it.amount).bind fun t =>
    (bumpBucket cs.daily it.date.isoformat fresh it.label it.amount).bind fun dm =>
      (bumpBucket cs.weekly (weekKey it.date) fresh it.label it.amount).map fun wm =>
        ⟨t, dm, wm⟩

/-- One full `calculate_totals` loop over a collection, also threading the
`cash_balance` / `mpesa_balance` running sums (income adds, expense and
savings subtract — selected by `isIncome`). -/
def processCol (dateF : Option Date) (weekF monthF : Option (Nat × Nat))
    (fresh : AList) (isIncome : Bool) :
    List LoopItem → ColState × Rat × Rat → Option (ColState × Rat × Rat)
  | [], st => some st
  | it :: rest, (cs, cash, mpesa) =>
    if matchesFilter it.date dateF weekF monthF then
      match colStep fresh it cs with
      | none => none
      | some cs2 =>
        let s : Rat := if isIncome then it.amount else -it.amount
        if it.payment_mode = "Cash" then
          processCol dateF weekF monthF fresh isIncome rest (cs2, cash + s, mpesa)
        else
          processCol dateF weekF monthF fresh isIncome rest (cs2, cash, mpesa + s)
    else
      processCol dateF weekF monthF fresh isIncome rest (cs, cash, mpesa)

/-- `{"total": 0, "Uber": 0, "Bolt": 0, "Littlecab": 0, "Offline": 0}` —
the income totals dict and the fresh income bucket. -/
def incomeInitTotals : AList :=
  [("total", 0), ("Uber", 0), ("Bolt", 0), ("Littlecab", 0), ("Offline", 0)]

/-- `{cat: 0 for cat in cats}` followed by `d["total"] = 0` —
the expense/savings totals dict and the fresh expense/savings bucket. -/
def catInitTotals (cats : List String) : AList :=
  setKeyA (dictFromKeys cats) "total" 0

/-- The tuple returned by `calculate_totals`. -/
structure CalcResult where
  income_totals : AList
  expense_totals : AList
  savings_totals : AList
  daily_income : OuterMap
  daily_expense : OuterMap
  daily_savings : OuterMap
  weekly_income : OuterMap
  weekly_expense : OuterMap
  weekly_savings : OuterMap
  balance : Rat
  total_savings : Rat
  cash_balance : Rat
  mpesa_balance : Rat
deriving DecidableEq, Repr

/-- `calculate_totals(date, week, month)` over an explicit ledger document;
`none` models the `KeyError` raised when an entry's platform/category is not
a key of the corresponding totals dict. -/
def calculate_totals (data : Data) (dateF : Option Date)
    (weekF monthF : Option (Nat × Nat)) : Option CalcResult :=
  match processCol dateF weekF monthF incomeInitTotals true
      (data.income.map IncomeEntry.item) (⟨incomeInitTotals, [], []⟩, 0, 0) with
  | none => none
  | some (ic, cash1, mp1) =>
    match processCol dateF weekF monthF (catInitTotals data.expense_categories) false
        (data.expenses.map CatEntry.item)
        (⟨catInitTotals data.expense_categories, [], []⟩, cash1, mp1) with
    | none => none
    | some (ec, cash2, mp2) =>
      match processCol dateF weekF monthF (catInitTotals data.savings_categories) false
          (data.savings.map CatEntry.item)
          (⟨catInitTotals data.savings_categories, [], []⟩, cash2, mp2) with
      | none => none
      | some (sc, cash3, mp3) =>
        let balance :=
          if data.savings_switch then lookupT ic.totals - lookupT ec.totals
          else lookupT ic.totals - lookupT ec.totals - lookupT sc.totals
        let total_savings :=
          if data.savings_switch then
            lookupT sc.totals + max 0 (lookupT ic.totals - lookupT ec.totals)
          else lookupT sc.totals
        some ⟨ic.totals, ec.totals, sc.totals, ic.daily, ec.daily, sc.daily,
          ic.weekly, ec.weekly, sc.weekly, balance, total_savings, cash3, mp3⟩

/-! ### Specification-side totals (independent `filter`/`map`/`sum` form) -/

/-- The loop items kept by the active filters. -/
def includedItems (dateF : Option Date) (weekF monthF : Option (Nat × Nat))
    (items : List LoopItem) : List LoopItem :=
  items.filter (fun it => matchesFilter it.date dateF weekF monthF)

/-- Sum of the amounts of a list of loop items. -/
def amountSum (items : List LoopItem) : Rat :=
  (items.map (fun it => it.amount)).sum

/-- Specification-side total income under the filters. -/
def specIncomeTotal (data : Data) (dateF : Option Date)
    (weekF monthF : Option (Nat × Nat)) : Rat :=
  amountSum (includedItems dateF weekF monthF (data.income.map IncomeEntry.item))

/-- Specification-side total expense under the filters. -/
def specExpenseTotal (data : Data) (dateF : Option Date)
    (weekF monthF : Option (Nat × Nat)) : Rat :=
  amountSum (includedItems dateF weekF monthF (data.expenses.map CatEntry.item))

/-- Specification-side total savings under the filters. -/
def specSavingsTotal (data : Data) (dateF : Option Date)
    (weekF monthF : Option (Nat × Nat)) : Rat :=
  amountSum (includedItems dateF weekF monthF (data.savings.map CatEntry.item))

/-- Sum of the `"total"` values of all buckets of a bucket map. -/
def sumBucketTotals (m : OuterMap) : Rat :=
  (m.map (fun p => lookupT p.2)).sum

/-- The `"total"` value of the bucket stored under `k` (0 for a missing
bucket or a missing `"total"` key). -/
def bucketTotal (m : OuterMap) (k : String) : Rat :=
  lookupT ((lookupA m k).getD [])

/-! ### Effect lemmas for the bucket updates -/

/-- Contribution of one loop item to the `"total"` key of its dicts
(`+= amount` for the total and again for the label when the label is the
reserved key `"total"` itself). -/
def contrib (it : LoopItem) : Rat :=
  it.amount + (if it.label = "total" then it.amount else 0)

/-! ### The week filter and the week buckets (C3) -/

/-- The predicate actually applied by the week filter: ISO week number of
the entry equals the requested week AND the *calendar* year of the entry
equals the requested year. -/
def inCalendarYearWeek (d : Date) (y w : Nat) : Bool :=
  decide (d.isoWeekNum = w) && decide (d.year = y)

/-- The entries kept by the `(year, week)` filter. -/
def weekFilteredItems (items : List LoopItem) (y w : Nat) : List LoopItem :=
  items.filter (fun it => inCalendarYearWeek it.date y w)

/-- Every kept entry is bucketed in the per-week map under the key derived
from its own ISO calendar (`"{ISO year}-W{2-digit ISO week}"`): each
bucket's total is the sum of the kept entries carrying that ISO key. -/
def weekBucketsMatch (m : OuterMap) (items : List LoopItem) (y w : Nat) : Prop :=
  ∀ k, bucketTotal m k =
    amountSum ((weekFilteredItems items y w).filter (fun it => weekKey it.date == k))

/-- The labels the `calculate_totals` loops can accumulate without a
`KeyError`: every filter-included income entry's platform is a key of the
income totals dict, and every filter-included expense/savings entry's
category is in the corresponding category list or is the reserved key
`"total"`. -/
def goodLabels (data : Data) (dF : Option Date) (wF mF : Option (Nat × Nat)) : Prop :=
  (∀ e ∈ data.income, matchesFilter e.date dF wF mF = true →
    e.platform = "total" ∨ e.platform = "Uber" ∨ e.platform = "Bolt" ∨
      e.platform = "Littlecab" ∨ e.platform = "Offline") ∧
  (∀ e ∈ data.expenses, matchesFilter e.date dF wF mF = true →
    e.category = "total" ∨ e.category ∈ data.expense_categories) ∧
  (∀ e ∈ data.savings, matchesFilter e.date dF wF mF = true →
    e.category = "total" ∨ e.category ∈ data.savings_categories)

/-- Every listed category appears in the returned totals dict (so the
renderer can distinguish "exists, zero" from "does not exist"), and for a
category other than the reserved key `"total"` its subtotal is exactly the
sum of the filter-included entries carrying it — zero when none do. -/
def catSubtotalsOk (cats : List String) (totalsDict : AList) (items : List LoopItem)
    (dF : Option Date) (wF mF : Option (Nat × Nat)) : Prop :=
  ∀ cat ∈ cats, (lookupA totalsDict cat).isSome = true ∧
    (cat ≠ "total" → lookupA totalsDict cat =
      some (amountSum ((includedItems dF wF mF items).filter
        (fun it => it.label == cat))))

/-- Whenever `calculate_totals` returns totals, the per-category subtotals
of the expense and savings dicts are correct and complete. -/
def subtotalsCorrect (data : Data) (dF : Option Date) (wF mF : Option (Nat × Nat)) : Prop :=
  ∀ r, calculate_totals data dF wF mF = some r →
    catSubtotalsOk data.expense_categories r.expense_totals
      (data.expenses.map CatEntry.item) dF wF mF ∧
    catSubtotalsOk data.savings_categories r.savings_totals
      (data.savings.map CatEntry.item) dF wF mF

/-! ### Concrete ledgers used by the counterexamples and witnesses -/

/-- Fallback result used only to name concrete `calculate_totals` outputs. -/
def emptyCalcResult : CalcResult :=
  ⟨[], [], [], [], [], [], [], [], [], 0, 0, 0, 0⟩

/-- The default expense category list of the program. -/
def defaultExpenseCats : List String :=
  ["Bike Hire", "Airtime", "Fuel", "Food", "Rent", "Debts", "Clothes"]

/-- The default savings category list of the program. -/
def defaultSavingsCats : List String :=
  ["Emergency Savings"]

/-- Witness ledger: one cash income of 1000, one M-Pesa expense of 300,
no savings, savings switch on. -/
def c2data : Data :=
  ⟨[⟨⟨2025, 1, 1⟩, "Uber", 1000, "", "Cash", ""⟩],
   [⟨⟨2025, 1, 1⟩, "Fuel", 300, "", "M-Pesa", "X1"⟩],
   [], defaultExpenseCats, defaultSavingsCats, true, ⟨"", ""⟩⟩

/-- The aggregation result for `c2data` with no filter. -/
def c2res : CalcResult :=
  (calculate_totals c2data none none none).getD emptyCalcResult

/-- Ledger with a single income entry dated 2024-12-31 (ISO 2025-W01). -/
def c3entry : IncomeEntry := ⟨⟨2024, 12, 31⟩, "Uber", 500, "", "Cash", ""⟩

/-- The counterexample/witness ledger for the week-filter claim. -/
def c3data : Data :=
  ⟨[c3entry], [], [], defaultExpenseCats, defaultSavingsCats, false, ⟨"", ""⟩⟩

/-- Aggregation of `c3data` under the week filter `(2025, 1)`. -/
def c3res : CalcResult :=
  (calculate_totals c3data none (some (2025, 1)) none).getD emptyCalcResult

/-- Aggregation of `c3data` under the week filter `(2024, 1)`. -/
def c3resIncl : CalcResult :=
  (calculate_totals c3data none (some (2024, 1)) none).getD emptyCalcResult

/-- Expense entry whose category is the reserved dict key `"total"`,
which is not in the category list. -/
def c10entry : CatEntry := ⟨⟨2025, 1, 1⟩, "total", 5, "", "Cash", ""⟩

/-- Ledger whose only expense carries the unlisted category `"total"`. -/
def c10data : Data :=
  ⟨[], [c10entry], [], defaultExpenseCats, defaultSavingsCats, false, ⟨"", ""⟩⟩

/-! ## The message parser (`parse_mpesa_message`)

The four templates use only literals, single character classes, greedy
`+` on character classes, and flat (non-nested) capturing groups, so the
matcher below implements exactly Python `re.search` semantics for that
fragment: leftmost starting position, greedy `+` with backtracking,
first-in-priority match, groups captured along the successful path. -/

/-- One atom of a regex pattern in the fragment the templates use. -/
inductive RAtom where
  | lit : List Char → RAtom
  | one : (Char → Bool) → RAtom
  | plus : (Char → Bool) → RAtom
  | gopen : RAtom
  | gclose : RAtom

/-- Length of the maximal prefix run satisfying a class. -/
def runLen (c : Char → Bool) : List Char → Nat
  | [] => 0
  | ch :: t => if c ch then runLen c t + 1 else 0

/-- Greedy `+`: try the continuation after consuming `k` characters,
longest first. -/
def tryPlus (f : List Char → Option (List String)) (s : List Char) :
    Nat → Option (List String)
  | 0 => none
  | k + 1 =>
    match f (s.drop (k + 1)) with
    | some r => some r
    | none => tryPlus f s k

/-- Match a pattern against a prefix of the input, returning the captured
groups; `g` is the start-of-current-group marker (the input suffix at the
last `gopen`).  The fuel argument only drives the structural recursion:
every recursive call shortens the atom list, so `atoms.length + 1` fuel is
never exhausted. -/
def matchF : Nat → List RAtom → List Char → Option (List Char) → List String →
    Option (List String)
  | 0, _, _, _, _ => none
  | _ + 1, [], _, _, gs => some gs
  | fuel + 1, .lit l :: rest, s, g, gs =>
    if l.isPrefixOf s then matchF fuel rest (s.drop l.length) g gs else none
  | fuel + 1, .one c :: rest, s, g, gs =>
    match s with
    | [] => none
    | ch :: t => if c ch then matchF fuel rest t g gs else none
  | fuel + 1, .plus c :: rest, s, g, gs =>
    tryPlus (fun s2 => matchF fuel rest s2 g gs) s (runLen c s)
  | fuel + 1, .gopen :: rest, s, _, gs => matchF fuel rest s (some s) gs
  | fuel + 1, .gclose :: rest, s, g, gs =>
    match g with
    | none => none
    | some st =>
      matchF fuel rest s none (gs ++ [String.mk (st.take (st.length - s.length))])

/-- Match a pattern at the start of the input. -/
def matchA (atoms : List RAtom) (s : List Char) : Option (List String) :=
  matchF (atoms.length + 1) atoms s none []

/-- `re.search`: try to match at each start position, leftmost first. -/
def searchA (atoms : List RAtom) : List Char → Option (List String)
  | [] =>
    (match matchA atoms [] with
      | some gs => some gs
      | none => none)
  | c :: t =>
    match matchA atoms (c :: t) with
    | some gs => some gs
    | none => searchA atoms t

/-- `\w` (ASCII fragment). -/
def wordChar (c : Char) : Bool := c.isAlphanum || c = '_'

/-- `\d`. -/
def digitChar (c : Char) : Bool := c.isDigit

/-- `[\d,.]`. -/
def amtChar (c : Char) : Bool := c.isDigit || c = ',' || c = '.'

/-- `\s` (Python ASCII whitespace). -/
def spaceChar (c : Char) : Bool := isPySpace c

/-- `[A-Z\s]`. -/
def upperSpace (c : Char) : Bool := ('A' ≤ c && c ≤ 'Z') || spaceChar c

/-- `[A-Z\s\-\.]`. -/
def upperSpaceDashDot (c : Char) : Bool := upperSpace c || c = '-' || c = '.'

/-- `[AP]`. -/
def apChar (c : Char) : Bool := c = 'A' || c = 'P'

/-- `\S`. -/
def nonSpace (c : Char) : Bool := !(isPySpace c)

/-- `(\d+/\d+/\d+)`. -/
def dateGroup : List RAtom :=
  [.gopen, .plus digitChar, .lit "/".data, .plus digitChar, .lit "/".data,
   .plus digitChar, .gclose]

/-- `(\d+:\d+\s[AP]M)`. -/
def timeGroup : List RAtom :=
  [.gopen, .plus digitChar, .lit ":".data, .plus digitChar, .one spaceChar,
   .one apChar, .lit "M".data, .gclose]

/-- The `received` template. -/
def receivedPattern : List RAtom :=
  [.gopen, .plus wordChar, .gclose,
   .lit " Confirmed.You have received Ksh".data,
   .gopen, .plus amtChar, .gclose,
   .lit ".00 from ".data,
   .gopen, .plus upperSpace, .gclose,
   .lit " ".data,
   .gopen, .plus digitChar, .gclose,
   .lit " on ".data] ++ dateGroup ++
  [.lit " at ".data] ++ timeGroup ++
  [.plus spaceChar,
   .lit "New M-PESA balance is Ksh".data,
   .gopen, .plus amtChar, .gclose,
   .lit ".".data]

/-- The `sent` template. -/
def sentPattern : List RAtom :=
  [.gopen, .plus wordChar, .gclose,
   .lit " Confirmed. Ksh".data,
   .gopen, .plus amtChar, .gclose,
   .lit ".00 sent to ".data,
   .gopen, .plus upperSpace, .gclose,
   .lit " ".data,
   .gopen, .plus digitChar, .gclose,
   .lit " on ".data] ++ dateGroup ++
  [.lit " at ".data] ++ timeGroup ++
  [.lit ". New M-PESA balance is Ksh".data,
   .gopen, .plus amtChar, .gclose,
   .lit ".".data]

/-- The `paid` template (six capturing groups — no phone group). -/
def paidPattern : List RAtom :=
  [.gopen, .plus wordChar, .gclose,
   .lit " Confirmed. Ksh".data,
   .gopen, .plus amtChar, .gclose,
   .lit ".00 paid to ".data,
   .gopen, .plus upperSpaceDashDot, .gclose,
   .lit ". on ".data] ++ dateGroup ++
  [.lit " at ".data] ++ timeGroup ++
  [.lit ".New M-PESA balance is Ksh".data,
   .gopen, .plus amtChar, .gclose,
   .lit ".".data]

/-- The `paybill` template. -/
def paybillPattern : List RAtom :=
  [.gopen, .plus wordChar, .gclose,
   .lit " Confirmed. Ksh".data,
   .gopen, .plus amtChar, .gclose,
   .lit ".00 sent to ".data,
   .gopen, .plus upperSpace, .gclose,
   .lit " for account ".data,
   .gopen, .plus nonSpace, .gclose,
   .lit " on ".data] ++ dateGroup ++
  [.lit " at ".data] ++ timeGroup ++
  [.lit " New M-PESA balance is Ksh".data,
   .gopen, .plus amtChar, .gclose,
   .lit ".".data]

/-- The template dictionary, in insertion (trial) order. -/
def patternsList : List (String × List RAtom) :=
  [("received", receivedPattern), ("sent", sentPattern),
   ("paid", paidPattern), ("paybill", paybillPattern)]

/-- First template (in order) whose `re.search` succeeds. -/
def firstMatch : List (String × List RAtom) → String → Option (String × List String)
  | [], _ => none
  | (name, pat) :: rest, msg =>
    match searchA pat msg.data with
    | some gs => some (name, gs)
    | none => firstMatch rest msg

/-- `match.group(i)` (1-based); raises `IndexError` past the group count. -/
def group (groups : List String) (i : Nat) : Except PyErr String :=
  match groups.get? (i - 1) with
  | some s => .ok s
  | none => .error .indexError

/-- `str.replace(',', '')`. -/
def stripCommas (s : String) : String :=
  String.mk (s.data.filter (fun c => c != ','))

/-- Python `float` on the digits-and-dots strings the parser feeds it
(raises `ValueError` → `none` for empty, bare dot, or multiple dots). -/
def pyFloat? (s : String) : Option Rat :=
  let cs := s.data
  let intPart := cs.takeWhile Char.isDigit
  let rest := cs.drop intPart.length
  match rest with
  | [] => if intPart.isEmpty then none else some ((digitsVal intPart : Nat) : Rat)
  | '.' :: frac =>
    if frac.all Char.isDigit && (intPart.length + frac.length > 0) then
      some (((digitsVal intPart : Nat) : Rat) +
        ((digitsVal frac : Nat) : Rat) / ((10 : Rat) ^ frac.length))
    else none
  | _ => none

/-- `normalize_phone`: strip, then map a leading `0` to `+254`. -/
def normalize_phone (phone : String) : String :=
  let phone := pyStrip phone
  if pyStartswith phone "0" then "+254" ++ String.mk (phone.data.drop 1)
  else if pyStartswith phone "+254" then phone
  else phone

/-- `%d` field of `strptime`: `3[01]|[12]\d|0[1-9]|[1-9]`. -/
def dayFormOk : List Char → Bool
  | [a] => '1' ≤ a && a ≤ '9'
  | [a, b] =>
    (a = '3' && (b = '0' || b = '1')) ||
    ((a = '1' || a = '2') && b.isDigit) ||
    (a = '0' && '1' ≤ b && b ≤ '9')
  | _ => false

/-- `%m` / `%I` field of `strptime`: `1[0-2]|0[1-9]|[1-9]`. -/
def monthFormOk : List Char → Bool
  | [a] => '1' ≤ a && a ≤ '9'
  | [a, b] => (a = '1' && ('0' ≤ b && b ≤ '2')) || (a = '0' && '1' ≤ b && b ≤ '9')
  | _ => false

/-- `%M` field of `strptime`: `[0-5]\d|\d`. -/
def minuteFormOk : List Char → Bool
  | [a] => a.isDigit
  | [a, b] => ('0' ≤ a && a ≤ '5') && b.isDigit
  | _ => false

/-- `%y` field of `strptime`: exactly two digits. -/
def yearFormOk2 : List Char → Bool
  | [a, b] => a.isDigit && b.isDigit
  | _ => false

/-- `datetime.strptime(s, '%d/%m/%y').date()`: field regexes, the 69-pivot
century rule, and the `date()` day-of-month validity check. -/
def strptime_dmy (s : String) : Option Date :=
  match splitOnChar '/' s.data with
  | [d, m, y] =>
    if dayFormOk d && monthFormOk m && yearFormOk2 y then
      let yy := digitsVal y
      let year := if yy ≤ 68 then 2000 + yy else 1900 + yy
      let month := digitsVal m
      let day := digitsVal d
      if day ≤ daysInMonth year month then some ⟨year, month, day⟩ else none
    else none
  | _ => none

/-- `datetime.strptime(s, '%I:%M %p').time().strftime('%H:%M:%S')`:
12-hour clock with meridiem, rendered back as `HH:MM:SS`. -/
def strptime_time12 (s : String) : Option String :=
  match splitOnChar ':' s.data with
  | [h, rest] =>
    let m := rest.takeWhile Char.isDigit
    let tail := rest.drop m.length
    match tail with
    | [sp, ap, mm] =>
      if monthFormOk h && minuteFormOk m && isPySpace sp &&
          (ap = 'A' || ap = 'P') && mm = 'M' then
        let hv := digitsVal h
        let mv := digitsVal m
        let h24 := if ap = 'P' then (if hv ≠ 12 then hv + 12 else 12)
          else (if hv = 12 then 0 else hv)
        some (pad2 h24 ++ ":" ++ pad2 mv ++ ":00")
      else none
    | _ => none
  | _ => none

/-- `parse_mpesa_message`: try the four templates in order; on the first
match extract the seven groups (raising `IndexError` on `group(7)` for the
six-group `paid` template), convert amounts and the date/time, normalize a
phone-like reference, and classify `received` as income, the rest as
expense; `ok none` when no template matches. -/
def parse_mpesa_message (message : String) : Except PyErr (Option MTrans) :=
  match firstMatch patternsList message with
  | none => .ok none
  | some (trans_type, groups) => do
    let trans_code ← group groups 1
    let g2 ← group groups 2
    let amount ← match pyFloat? (stripCommas g2) with
      | some a => Except.ok a
      | none => Except.error PyErr.valueError
    let g3 ← group groups 3
    let name := pyStrip g3
    let phone_or_account ← if trans_type ≠ "paid" then group groups 4 else pure ""
    let date_str ← group groups 5
    let time_str ← group groups 6
    let g7 ← group groups 7
    let balance ← match pyFloat? (stripCommas g7) with
      | some a => Except.ok a
      | none => Except.error PyErr.valueError
    let date ← match strptime_dmy date_str with
      | some d => Except.ok d
      | none => Except.error PyErr.valueError
    let time ← match strptime_time12 time_str with
      | some t => Except.ok t
      | none => Except.error PyErr.valueError
    let phone := if pyStartswith phone_or_account "0" ||
        pyStartswith phone_or_account "+254" then
      normalize_phone phone_or_account else ""
    Except.ok (some ⟨(if trans_type = "received" then "income" else "expense"),
      trans_code, amount, name, phone, date.isoformat, time, balance⟩)

/-! ## Validators and the add operations -/

/-- Python `int()` on an already lowered/stripped string. -/
def pyInt? (s : String) : Option Int :=
  match s.data with
  | [] => none
  | '-' :: ds =>
    if !ds.isEmpty && ds.all Char.isDigit then some (-(digitsVal ds : Int)) else none
  | '+' :: ds =>
    if !ds.isEmpty && ds.all Char.isDigit then some ((digitsVal ds : Int)) else none
  | ds => if ds.all Char.isDigit then some ((digitsVal ds : Int)) else none

/-- The `PLATFORMS` dictionary (menu code → platform name). -/
def PLATFORMS : List (String × String) :=
  [("1", "Uber"), ("u", "Uber"), ("2", "Bolt"), ("b", "Bolt"),
   ("3", "Littlecab"), ("l", "Littlecab"), ("4", "Offline"), ("o", "Offline")]

/-- `validate_platform`: lower/strip, then look the text up among the
`PLATFORMS` keys (the single-character menu codes). -/
def validate_platform (platform : String) : Except PyErr String :=
  let platform := pyStrip (pyLower platform)
  match lookupA PLATFORMS platform with
  | some v => Except.ok v
  | none => Except.error PyErr.invalidPlatform

/-- `validate_category`: try the input as a 1-based index, else as a
case-insensitive prefix (or exact lowercase match) of a listed category,
first match in list order. -/
def validate_category (category : String) (categories : List String) :
    Except PyErr String :=
  let category := pyStrip (pyLower category)
  match pyInt? category with
  | some i =>
    let idx := i - 1
    if 0 ≤ idx ∧ idx < categories.length then
      Except.ok (categories.getD idx.toNat "")
    else Except.error PyErr.invalidCategory
  | none =>
    match categories.find? (fun cat =>
        pyStartswith (pyLower cat) category || category == pyLower cat) with
    | some cat => Except.ok cat
    | none => Except.error PyErr.invalidCategory

/-- `validate_amount` on an already-numeric amount: must be `> 0`.
(The `float(text)` conversion of the interactive path is outside this
embedding; amounts enter as numbers.) -/
def validate_amount (amount : Rat) : Except PyErr Rat :=
  if amount ≤ 0 then Except.error PyErr.invalidAmount else Except.ok amount

/-- The `PAYMENT_MODES` list. -/
def PAYMENT_MODES : List String := ["Cash", "M-Pesa"]

/-- `validate_payment_mode`: title-case/strip, then membership in
`PAYMENT_MODES`. -/
def validate_payment_mode (mode : String) : Except PyErr String :=
  let mode := pyStrip (pyTitle mode)
  if mode ∈ PAYMENT_MODES then Except.ok mode else Except.error PyErr.invalidPaymentMode

/-- `%Y` field of `strptime`: exactly four digits. -/
def yearFormOk4 : List Char → Bool
  | [a, b, c, d] => a.isDigit && b.isDigit && c.isDigit && d.isDigit
  | _ => false

/-- `datetime.strptime(s, '%Y-%m-%d').date()` (whole string must match,
then the `date()` constructor validates ranges). -/
def strptimeYMD (s : String) : Option Date :=
  match splitOnChar '-' s.data with
  | [y, m, d] =>
    if yearFormOk4 y && monthFormOk m && dayFormOk d then
      let year := digitsVal y
      let month := digitsVal m
      let day := digitsVal d
      if 1 ≤ year ∧ day ≤ daysInMonth year month then some ⟨year, month, day⟩
      else none
    else none
  | _ => none

/-- `re.match(r'\d{4}-\d{2}-\d{2}', s)` (prefix match). -/
def matchYMD (s : String) : Bool :=
  match s.data with
  | a :: b :: c :: d :: h1 :: e :: f :: h2 :: g :: h :: _ =>
    a.isDigit && b.isDigit && c.isDigit && d.isDigit && h1 = '-' &&
    e.isDigit && f.isDigit && h2 = '-' && g.isDigit && h.isDigit
  | _ => false

/-- `re.match(r'\d{2}-\d{2}', s)` (prefix match). -/
def matchMD (s : String) : Bool :=
  match s.data with
  | a :: b :: h1 :: c :: d :: _ =>
    a.isDigit && b.isDigit && h1 = '-' && c.isDigit && d.isDigit
  | _ => false

/-- `parse_date`: accept `YYYY-MM-DD`, `MM-DD` (current year) or `DD`
(current year and month); reject a date after `today` with the distinct
future-date error, other failures with the invalid-date error. -/
def parse_date (today : Date) (date_str : String) : Except PyErr Date :=
  let attempt :=
    if matchYMD date_str then strptimeYMD date_str
    else if matchMD date_str then
      strptimeYMD (toString today.year ++ "-" ++ date_str)
    else
      strptimeYMD (toString today.year ++ "-" ++ pad2 today.month ++ "-" ++ date_str)
  match attempt with
  | none => Except.error PyErr.invalidDate
  | some parsed =>
    if dateLt today parsed then Except.error PyErr.futureDate else Except.ok parsed

/-- `add_income`: validate, then append the entry to the income ledger
(the transaction code is kept only for M-Pesa mode). -/
def add_income (today : Date) (data : Data) (date_str platform : String)
    (amount : Rat) (notes payment_mode transaction_code : String) :
    Except PyErr (Data × IncomeEntry) :=
  match parse_date today date_str with
  | .error e => .error e
  | .ok date =>
    match validate_platform platform with
    | .error e => .error e
    | .ok platform =>
      match validate_amount amount with
      | .error e => .error e
      | .ok amount =>
        match validate_payment_mode payment_mode with
        | .error e => .error e
        | .ok payment_mode =>
          let entry : IncomeEntry := ⟨date, platform, amount, pyStrip notes,
            payment_mode, if payment_mode = "M-Pesa" then transaction_code else ""⟩
          .ok ({ data with income := data.income ++ [entry] }, entry)

/-- `add_expense`. -/
def add_expense (today : Date) (data : Data) (date_str category : String)
    (amount : Rat) (notes payment_mode transaction_code : String) :
    Except PyErr (Data × CatEntry) :=
  match parse_date today date_str with
  | .error e => .error e
  | .ok date =>
    match validate_category category data.expense_categories with
    | .error e => .error e
    | .ok category =>
      match validate_amount amount with
      | .error e => .error e
      | .ok amount =>
        match validate_payment_mode payment_mode with
        | .error e => .error e
        | .ok payment_mode =>
          let entry : CatEntry := ⟨date, category, amount, pyStrip notes,
            payment_mode, if payment_mode = "M-Pesa" then transaction_code else ""⟩
          .ok ({ data with expenses := data.expenses ++ [entry] }, entry)

/-- `add_savings`. -/
def add_savings (today : Date) (data : Data) (date_str category : String)
    (amount : Rat) (notes payment_mode transaction_code : String) :
    Except PyErr (Data × CatEntry) :=
  match parse_date today date_str with
  | .error e => .error e
  | .ok date =>
    match validate_category category data.savings_categories with
    | .error e => .error e
    | .ok category =>
      match validate_amount amount with
      | .error e => .error e
      | .ok amount =>
        match validate_payment_mode payment_mode with
        | .error e => .error e
        | .ok payment_mode =>
          let entry : CatEntry := ⟨date, category, amount, pyStrip notes,
            payment_mode, if payment_mode = "M-Pesa" then transaction_code else ""⟩
          .ok ({ data with savings := data.savings ++ [entry] }, entry)

/-- `smart_categorize`: fuel-station keywords map to "Fuel", the airtime
reseller token to "Airtime", case-insensitive substring containment. -/
def smart_categorize (name : String) : Option String :=
  let name := pyLower name
  if ["petrol", "fuel", "station"].any (fun keyword => pyContains name keyword) then
    some "Fuel"
  else if pyContains name "marapay" then some "Airtime"
  else none

/-! ## Batch message processing (`process_mpesa_messages`)

The operator's interactive three-way choice for an uncategorized
transaction is modelled by the `uncat` policy parameter; the contact-file
bookkeeping is omitted (it never touches the ledger or the verification).
-/

/-- The operator's choice for an uncategorized expense-side transaction. -/
inductive UncatChoice where
  | expense (catInput : String)
  | savings (catInput : String)
  | skip
deriving DecidableEq, Repr

/-- Observable outcome of one processed message. -/
inductive Outcome where
  | invalidMessage (msg : String)
  | balanceMismatch (code : String)
  | addedIncome (e : IncomeEntry)
  | addedExpense (e : CatEntry)
  | addedSavings (e : CatEntry)
  | skippedUncategorized (code : String)
deriving DecidableEq, Repr

/-- Result of a batch run: the final on-disk ledger, the per-message
outcomes (in message order), and the uncaught exception that aborted the
batch, if any. -/
structure ProcResult where
  disk : Data
  outcomes : List Outcome
  aborted : Option PyErr
deriving DecidableEq, Repr

/-- The uncategorized-transaction dialog: validate the chosen category
against the batch-start snapshot `data`, then add the entry. -/
def uncategorizedStep (today : Date) (data : Data) (trans : MTrans)
    (choice : UncatChoice) (disk : Data) : Except PyErr (Data × Outcome) :=
  match choice with
  | .expense catInput => do
    let category ← validate_category catInput data.expense_categories
    let (disk2, entry) ← add_expense today disk trans.date category trans.amount
      ("To " ++ trans.name) "M-Pesa" trans.transaction_code
    Except.ok (disk2, .addedExpense entry)
  | .savings catInput => do
    let category ← validate_category catInput data.savings_categories
    let (disk2, entry) ← add_savings today disk trans.date category trans.amount
      ("To " ++ trans.name) "M-Pesa" trans.transaction_code
    Except.ok (disk2, .addedSavings entry)
  | .skip => Except.ok (disk, .skippedUncategorized trans.transaction_code)

/-- The message loop of `process_mpesa_messages`.  `data` is the local
snapshot loaded once before the loop — every balance verification and
category lookup uses it — while the adds go through `disk`, the evolving
on-disk ledger (each `add_*` reloads and saves the file).  An uncaught
exception (`parse`/`add` error) aborts the whole batch. -/
def processGo (today : Date) (data : Data) (uncat : MTrans → UncatChoice) :
    List String → Data → List Outcome → ProcResult
  | [], disk, outs => ⟨disk, outs.reverse, none⟩
  | message :: rest, disk, outs =>
    match parse_mpesa_message message with
    | .error e => ⟨disk, outs.reverse, some e⟩
    | .ok none =>
      processGo today data uncat rest disk (.invalidMessage message :: outs)
    | .ok (some transaction) =>
      if verify_mpesa_balance transaction data = false then
        processGo today data uncat rest disk
          (.balanceMismatch transaction.transaction_code :: outs)
      else
        if transaction.type = "income" then
          match add_income today disk transaction.date "Offline" transaction.amount
              ("From " ++ transaction.name) "M-Pesa" transaction.transaction_code with
          | .error e => ⟨disk, outs.reverse, some e⟩
          | .ok (disk2, entry) =>
            processGo today data uncat rest disk2 (.addedIncome entry :: outs)
        else
          match smart_categorize transaction.name with
          | some category =>
            if category ∈ data.expense_categories then
              match add_expense today disk transaction.date category transaction.amount
                  ("To " ++ transaction.name) "M-Pesa" transaction.transaction_code with
              | .error e => ⟨disk, outs.reverse, some e⟩
              | .ok (disk2, entry) =>
                processGo today data uncat rest disk2 (.addedExpense entry :: outs)
            else
              match uncategorizedStep today data transaction (uncat transaction) disk with
              | .error e => ⟨disk, outs.reverse, some e⟩
              | .ok (disk2, out) => processGo today data uncat rest disk2 (out :: outs)
          | none =>
            match uncategorizedStep today data transaction (uncat transaction) disk with
            | .error e => ⟨disk, outs.reverse, some e⟩
            | .ok (disk2, out) => processGo today data uncat rest disk2 (out :: outs)

/-- `process_mpesa_messages`: refuse to run without the M-Pesa identity,
then load the snapshot and run the loop. -/
def process_mpesa_messages (today : Date) (disk : Data)
    (uncat : MTrans → UncatChoice) (messages : List String) : ProcResult :=
  let data := disk
  if data.mpesa_details.name = "" ∨ data.mpesa_details.phone = "" then ⟨disk, [], none⟩
  else processGo today data uncat messages disk []

/-! ## Persistence (`load_data`) -/

/-- A persisted ledger document: each top-level key may be absent. -/
structure StoredDoc where
  income : Option (List IncomeEntry)
  expenses : Option (List CatEntry)
  savings : Option (List CatEntry)
  expense_categories : Option (List String)
  savings_categories : Option (List String)
  savings_switch : Option Bool
  mpesa_details : Option MpesaDetails
deriving DecidableEq, Repr

/-- `load_data`: when the file exists, fill in the four keys of the
migration list (`expense_categories`, `savings_categories`,
`savings_switch`, `mpesa_details`) when absent; when it does not exist,
return the full fresh document. -/
def load_data : Option StoredDoc → StoredDoc
  | some d =>
    { d with
      expense_categories := some (d.expense_categories.getD defaultExpenseCats),
      savings_categories := some (d.savings_categories.getD defaultSavingsCats),
      savings_switch := some (d.savings_switch.getD false),
      mpesa_details := some (d.mpesa_details.getD ⟨"", ""⟩) }
  | none =>
    ⟨some [], some [], some [], some defaultExpenseCats, some defaultSavingsCats,
      some false, some ⟨"", ""⟩⟩

/-- A persisted document with every top-level key absent. -/
def emptyStored : StoredDoc := ⟨none, none, none, none, none, none, none⟩

/-- Today's date used by the concrete scenarios. -/
def c8today : Date := ⟨2025, 6, 1⟩

/-- Fallback pair used only to name the concrete `add_income` output. -/
def addFallbackI : Data × IncomeEntry :=
  (c2data, ⟨⟨2025, 1, 1⟩, "", 1, "", "", ""⟩)

/-- The concrete successful `add_income` run of the C8 witness. -/
def c8resI : Data × IncomeEntry :=
  ((add_income c8today c2data "2025-01-02" "u" 50 "note" "cash" "Z1").toOption).getD
    addFallbackI

/-! ## Concrete message-parsing scenarios (C6) -/

/-- A well-formed `received` message (the C6 scenario). -/
def c6recvMsg : String :=
  "ABC1 Confirmed.You have received Ksh1,000.00 from JOHN DOE 0712345678 on 01/01/25 at 10:30 AM New M-PESA balance is Ksh5,000.00."

/-- A well-formed `paid` message, matching the six-group `paid` template. -/
def c6paidMsg : String :=
  "XYZ9 Confirmed. Ksh200.00 paid to SHELL STATION. on 02/01/25 at 1:05 PM.New M-PESA balance is Ksh4,800.00."

/-- Fallback transaction used only to name parser outputs. -/
def noTrans : MTrans := ⟨"", "", 0, "", "", "", "", 0⟩

/-- The transaction parsed from the C6 `received` message. -/
def c6trans : MTrans :=
  (((parse_mpesa_message c6recvMsg).toOption).getD none).getD noTrans

/-! ## Batch-processing scenarios (C9, C4) -/

/-- A `received` message consistent with an empty ledger (expected balance
0 + 1000 against a claimed balance of 1000). -/
def c9msg : String :=
  "AAC1 Confirmed.You have received Ksh1,000.00 from JOHN DOE 0712345678 on 01/01/25 at 10:30 AM New M-PESA balance is Ksh1,000.00."

/-- Empty ledger with the M-Pesa identity configured. -/
def c9d0 : Data :=
  ⟨[], [], [], defaultExpenseCats, defaultSavingsCats, false,
   ⟨"JOHN DOE", "0712345678"⟩⟩

/-- The transaction parsed from `c9msg`. -/
def c9t : MTrans :=
  (((parse_mpesa_message c9msg).toOption).getD none).getD noTrans

/-- Batch-start ledger for the C4 scenario: one M-Pesa income of 1000. -/
def c4d0 : Data :=
  ⟨[⟨⟨2025, 1, 1⟩, "Uber", 1000, "", "M-Pesa", "AAA0"⟩], [], [],
   defaultExpenseCats, defaultSavingsCats, false, ⟨"JOHN DOE", "0712345678"⟩⟩

/-- First batch message: spend 200, claimed balance 800 (consistent). -/
def c4m1 : String :=
  "AAB1 Confirmed. Ksh200.00 sent to SHELL STATION 0722000000 on 02/01/25 at 10:30 AM. New M-PESA balance is Ksh800.00."

/-- Second batch message: spend 300, claimed balance 500 (consistent with
the ledger after the first message is applied, inconsistent with the
batch-start snapshot). -/
def c4m2 : String :=
  "AAB2 Confirmed. Ksh300.00 sent to SHELL STATION 0722000000 on 02/01/25 at 10:31 AM. New M-PESA balance is Ksh500.00."

/-- The transaction parsed from `c4m1`. -/
def c4t1 : MTrans :=
  (((parse_mpesa_message c4m1).toOption).getD none).getD noTrans

/-- The transaction parsed from `c4m2`. -/
def c4t2 : MTrans :=
  (((parse_mpesa_message c4m2).toOption).getD none).getD noTrans

/-- The expense entry the first message produces (auto-categorized
`"Fuel"` by `smart_categorize`). -/
def c4e1 : CatEntry :=
  ⟨⟨2025, 1, 2⟩, "Fuel", c4t1.amount, "To SHELL STATION", "M-Pesa", "AAB1"⟩

/-- The ledger after the first message is applied. -/
def c4d1 : Data := { c4d0 with expenses := c4d0.expenses ++ [c4e1] }

/-! ## Lemmas and claim theorems -/

lemma foldl_add_filter (l : List IncomeEntry) (b : Rat) :
    l.foldl (fun b entry => if entry.payment_mode = "M-Pesa" then b + entry.amount else b) b
      = b + ((l.filter (fun e => e.payment_mode = "M-Pesa")).map (fun e => e.amount)).sum := by
  induction l generalizing b with
  | nil => simp
  | cons e t ih =>
    by_cases h : e.payment_mode = "M-Pesa" <;>
      simp [List.foldl_cons, List.filter_cons, h, ih] <;> ring

lemma foldl_sub_filter (l : List CatEntry) (b : Rat) :
    l.foldl (fun b entry => if entry.payment_mode = "M-Pesa" then b - entry.amount else b) b
      = b - ((l.filter (fun e => e.payment_mode = "M-Pesa")).map (fun e => e.amount)).sum := by
  induction l generalizing b with
  | nil => simp
  | cons e t ih =>
    by_cases h : e.payment_mode = "M-Pesa" <;>
      simp [List.foldl_cons, List.filter_cons, h, ih] <;> ring

/-- The fold in `calculate_mpesa_balance` computes exactly the
specification-side channel balance. -/
lemma calculate_mpesa_balance_eq_spec (data : Data) :
    calculate_mpesa_balance data = channelBalanceSpec data := by
  unfold calculate_mpesa_balance channelBalanceSpec
  rw [foldl_add_filter, List.foldl_append, foldl_sub_filter, foldl_sub_filter]
  ring

/-! ### Lemmas about the dictionary operations -/

lemma bump_isSome (m : AList) (k : String) (a : Rat) :
    (bump m k a).isSome = hasKeyA m k := by
  induction m with
  | nil => simp [bump, hasKeyA, lookupA]
  | cons p t ih =>
    obtain ⟨pk, pv⟩ := p
    by_cases h : pk = k <;> simp [bump, hasKeyA, lookupA, h] <;>
      simpa [hasKeyA] using ih

lemma bump_lookup {m : AList} {k : String} {a : Rat} {m2 : AList}
    (h : bump m k a = some m2) (k2 : String) :
    lookupA m2 k2 = if k2 = k then (lookupA m k2).map (fun v => v + a) else lookupA m k2 := by
  induction m generalizing m2 with
  | nil => simp [bump] at h
  | cons p t ih =>
    obtain ⟨pk, pv⟩ := p
    by_cases hpk : pk = k
    · subst hpk
      simp only [bump, if_pos rfl] at h
      cases h
      by_cases h2 : pk = k2
      · subst h2; simp [lookupA]
      · have h2s : ¬ (k2 = pk) := fun hh => h2 hh.symm
        simp [lookupA, h2, h2s]
    · simp only [bump, if_neg hpk] at h
      cases ht : bump t k a with
      | none => rw [ht] at h; simp at h
      | some t2 =>
        rw [ht] at h; simp at h
        subst h
        by_cases h2 : pk = k2
        · subst h2; simp [lookupA, hpk]
        · simp [lookupA, h2, ih ht]

lemma bump_hasKey {m : AList} {k : String} {a : Rat} {m2 : AList}
    (h : bump m k a = some m2) (k2 : String) :
    hasKeyA m2 k2 = hasKeyA m k2 := by
  unfold hasKeyA
  rw [bump_lookup h k2]
  by_cases h2 : k2 = k <;> simp [h2]

lemma bump_lookup_self {m : AList} {k : String} {a : Rat} {m2 : AList}
    (h : bump m k a = some m2) :
    lookupA m2 k = (lookupA m k).map (fun v => v + a) := by
  rw [bump_lookup h k]; simp

lemma bump_lookup_ne {m : AList} {k : String} {a : Rat} {m2 : AList}
    (h : bump m k a = some m2) {k2 : String} (hne : k2 ≠ k) :
    lookupA m2 k2 = lookupA m k2 := by
  rw [bump_lookup h k2]; simp [hne]

lemma lookupA_append {α : Type} (m1 m2 : List (String × α)) (k : String) :
    lookupA (m1 ++ m2) k =
      (match lookupA m1 k with
        | some v => some v
        | none => lookupA m2 k) := by
  induction m1 with
  | nil => simp [lookupA]
  | cons p t ih =>
    obtain ⟨pk, pv⟩ := p
    by_cases h : pk = k <;> simp [lookupA, h, ih]

lemma bump2_isSome (b : AList) (lbl : String) (a : Rat) :
    (bump2 b lbl a).isSome = (hasKeyA b "total" && hasKeyA b lbl) := by
  unfold bump2
  cases h : bump b "total" a with
  | none =>
    have h1 := bump_isSome b "total" a
    rw [h] at h1
    simp [← h1]
  | some b1 =>
    have h1 := bump_isSome b "total" a
    rw [h] at h1
    simp only [Option.some_bind]
    rw [bump_isSome b1 lbl a, bump_hasKey h lbl, ← h1]
    simp

lemma bump2_hasKey {b : AList} {lbl : String} {a : Rat} {b2 : AList}
    (h : bump2 b lbl a = some b2) (k : String) :
    hasKeyA b2 k = hasKeyA b k := by
  unfold bump2 at h
  cases h1 : bump b "total" a with
  | none => rw [h1] at h; simp at h
  | some b1 =>
    rw [h1] at h; simp only [Option.some_bind] at h
    rw [bump_hasKey h k, bump_hasKey h1 k]

lemma bump2_lookupT {b : AList} {lbl : String} {a : Rat} {b2 : AList}
    (h : bump2 b lbl a = some b2) :
    lookupT b2 = lookupT b + a + (if lbl = "total" then a else 0) := by
  unfold bump2 at h
  cases h1 : bump b "total" a with
  | none => rw [h1] at h; simp at h
  | some b1 =>
    rw [h1] at h; simp only [Option.some_bind] at h
    have e1 := bump_lookup_self h1
    have hs : (bump b "total" a).isSome := by rw [h1]; rfl
    rw [bump_isSome] at hs
    unfold hasKeyA at hs
    obtain ⟨v, hv⟩ := Option.isSome_iff_exists.mp hs
    by_cases hl : lbl = "total"
    · subst hl
      have e2 := bump_lookup_self h
      unfold lookupT lookupV
      rw [e2, e1, hv]
      simp [add_assoc]
    · have e2 := bump_lookup_ne h (show ("total" : String) ≠ lbl from fun hh => hl hh.symm)
      unfold lookupT lookupV
      rw [e2, e1, hv]
      simp [hl]

lemma bump2_lookupV_ne {b : AList} {lbl : String} {a : Rat} {b2 : AList}
    (h : bump2 b lbl a = some b2) {k : String} (hk : k ≠ "total") :
    lookupV b2 k = lookupV b k + (if lbl = k then a else 0) := by
  unfold bump2 at h
  cases h1 : bump b "total" a with
  | none => rw [h1] at h; simp at h
  | some b1 =>
    rw [h1] at h; simp only [Option.some_bind] at h
    have e1 := bump_lookup_ne h1 hk
    by_cases hl : lbl = k
    · subst hl
      have e2 := bump_lookup_self h
      have hs : (bump b1 lbl a).isSome := by rw [h]; rfl
      rw [bump_isSome] at hs
      unfold hasKeyA at hs
      obtain ⟨v, hv⟩ := Option.isSome_iff_exists.mp hs
      unfold lookupV
      rw [e2, hv]
      rw [e1] at hv
      rw [hv]
      simp
    · have e2 := bump_lookup_ne h (show k ≠ lbl from fun hh => hl hh.symm)
      unfold lookupV
      rw [e2, e1]
      simp [hl]

lemma modifyAtKey_eq_some {α : Type} {m : List (String × α)} {key : String}
    {f : α → Option α} {m2 : List (String × α)}
    (h : modifyAtKey m key f = some m2) :
    ∃ v v2, lookupA m key = some v ∧ f v = some v2 ∧
      ∀ k2, lookupA m2 k2 = if k2 = key then some v2 else lookupA m k2 := by
  induction m generalizing m2 with
  | nil => simp [modifyAtKey] at h
  | cons p t ih =>
    obtain ⟨pk, pv⟩ := p
    by_cases hpk : pk = key
    · subst hpk
      simp only [modifyAtKey, if_pos rfl] at h
      cases hf : f pv with
      | none => rw [hf] at h; simp at h
      | some v2 =>
        rw [hf] at h; simp at h; subst h
        refine ⟨pv, v2, by simp [lookupA], hf, ?_⟩
        intro k2
        by_cases h2 : k2 = pk
        · subst h2; simp [lookupA]
        · have h2s : ¬ (pk = k2) := fun hh => h2 hh.symm
          simp [lookupA, h2s, h2]
    · simp only [modifyAtKey, if_neg hpk] at h
      cases hmt : modifyAtKey t key f with
      | none => rw [hmt] at h; simp at h
      | some t2 =>
        rw [hmt] at h; simp at h; subst h
        obtain ⟨v, v2, hv, hfv, hlook⟩ := ih hmt
        refine ⟨v, v2, by simp [lookupA, hpk, hv], hfv, ?_⟩
        intro k2
        by_cases h2 : pk = k2
        · subst h2
          have : ¬ (pk = key) := hpk
          simp [lookupA, this]
        · simp [lookupA, h2, hlook k2]

lemma modifyAtKey_isSome {α : Type} {m : List (String × α)} {key : String}
    {f : α → Option α} (v : α) (hv : lookupA m key = some v) (hf : (f v).isSome) :
    (modifyAtKey m key f).isSome := by
  induction m with
  | nil => simp [lookupA] at hv
  | cons p t ih =>
    obtain ⟨pk, pv⟩ := p
    by_cases hpk : pk = key
    · subst hpk
      simp only [lookupA, if_pos rfl] at hv
      cases hv
      simpa [modifyAtKey] using hf
    · simp only [lookupA, if_neg hpk] at hv
      simpa [modifyAtKey, hpk] using ih hv

lemma modifyAtKey_mem {α : Type} {m : List (String × α)} {key : String}
    {f : α → Option α} {m2 : List (String × α)}
    (h : modifyAtKey m key f = some m2) :
    ∀ p ∈ m2, p ∈ m ∨ ∃ v, lookupA m key = some v ∧ f v = some p.2 ∧ p.1 = key := by
  induction m generalizing m2 with
  | nil => simp [modifyAtKey] at h
  | cons q t ih =>
    obtain ⟨pk, pv⟩ := q
    by_cases hpk : pk = key
    · subst hpk
      simp only [modifyAtKey, if_pos rfl] at h
      cases hf : f pv with
      | none => rw [hf] at h; simp at h
      | some v2 =>
        rw [hf] at h; simp at h; subst h
        intro p hp
        rcases List.mem_cons.mp hp with hp | hp
        · subst hp
          exact Or.inr ⟨pv, by simp [lookupA], hf, rfl⟩
        · exact Or.inl (List.mem_cons_of_mem _ hp)
    · simp only [modifyAtKey, if_neg hpk] at h
      cases hmt : modifyAtKey t key f with
      | none => rw [hmt] at h; simp at h
      | some t2 =>
        rw [hmt] at h; simp at h; subst h
        intro p hp
        rcases List.mem_cons.mp hp with hp | hp
        · exact Or.inl (by simp [hp])
        · rcases ih hmt p hp with h1 | ⟨v, hv, hfv, hk⟩
          · exact Or.inl (List.mem_cons_of_mem _ h1)
          · exact Or.inr ⟨v, by simp [lookupA, hpk, hv], hfv, hk⟩

lemma lookupA_mem {α : Type} {m : List (String × α)} {k : String} {v : α}
    (h : lookupA m k = some v) : (k, v) ∈ m := by
  induction m with
  | nil => simp [lookupA] at h
  | cons p t ih =>
    obtain ⟨pk, pv⟩ := p
    by_cases hpk : pk = k
    · subst hpk
      simp only [lookupA, if_pos rfl] at h
      cases h
      exact List.mem_cons_self _ _
    · simp only [lookupA, if_neg hpk] at h
      exact List.mem_cons_of_mem _ (ih h)

lemma modifyAtKey_isSome_iff {α : Type} {m : List (String × α)} {key : String}
    {f : α → Option α} :
    (modifyAtKey m key f).isSome = true ↔
      ∃ v, lookupA m key = some v ∧ (f v).isSome = true := by
  constructor
  · intro h
    obtain ⟨m2, hm2⟩ := Option.isSome_iff_exists.mp h
    obtain ⟨v, v2, hv, hfv, _⟩ := modifyAtKey_eq_some hm2
    exact ⟨v, hv, by simp [hfv]⟩
  · rintro ⟨v, hv, hfv⟩
    exact modifyAtKey_isSome v hv hfv

lemma sumBucketTotals_append (m : OuterMap) (p : String × AList) :
    sumBucketTotals (m ++ [p]) = sumBucketTotals m + lookupT p.2 := by
  simp [sumBucketTotals]

lemma modifyAtKey_sum {m : OuterMap} {key : String} {f : AList → Option AList}
    {m2 : OuterMap} (h : modifyAtKey m key f = some m2) :
    ∃ v v2, lookupA m key = some v ∧ f v = some v2 ∧
      sumBucketTotals m2 = sumBucketTotals m + (lookupT v2 - lookupT v) := by
  induction m generalizing m2 with
  | nil => simp [modifyAtKey] at h
  | cons p t ih =>
    obtain ⟨pk, pv⟩ := p
    by_cases hpk : pk = key
    · subst hpk
      simp only [modifyAtKey, if_pos rfl] at h
      cases hf : f pv with
      | none => rw [hf] at h; simp at h
      | some v2 =>
        rw [hf] at h; simp at h; subst h
        refine ⟨pv, v2, by simp [lookupA], hf, ?_⟩
        simp [sumBucketTotals]
        ring
    · simp only [modifyAtKey, if_neg hpk] at h
      cases hmt : modifyAtKey t key f with
      | none => rw [hmt] at h; simp at h
      | some t2 =>
        rw [hmt] at h; simp at h; subst h
        obtain ⟨v, v2, hv, hfv, hsum⟩ := ih hmt
        refine ⟨v, v2, by simp [lookupA, hpk, hv], hfv, ?_⟩
        simp [sumBucketTotals] at hsum ⊢
        rw [hsum]
        ring

/-- Effect of `bumpBucket` on the sum of all bucket totals. -/
lemma bumpBucket_sum {m : OuterMap} {key : String} {fresh : AList} {lbl : String}
    {a : Rat} {m2 : OuterMap} (hfresh : lookupT fresh = 0)
    (h : bumpBucket m key fresh lbl a = some m2) :
    sumBucketTotals m2 = sumBucketTotals m + (a + (if lbl = "total" then a else 0)) := by
  unfold bumpBucket at h
  simp only at h
  by_cases hk : hasKeyA m key = true
  · rw [if_pos hk] at h
    obtain ⟨v, v2, hv, hfv, hsum⟩ := modifyAtKey_sum h
    rw [hsum, bump2_lookupT hfv]
    ring
  · rw [if_neg hk] at h
    obtain ⟨v, v2, hv, hfv, hsum⟩ := modifyAtKey_sum h
    have hnone : lookupA m key = none := by
      unfold hasKeyA at hk
      exact Option.not_isSome_iff_eq_none.mp (by simpa using hk)
    have hvf : v = fresh := by
      rw [lookupA_append, hnone] at hv
      simp [lookupA] at hv
      exact hv.symm
    rw [hsum, bump2_lookupT hfv, sumBucketTotals_append, hvf, hfresh]
    ring

/-- Effect of `bumpBucket` on the `"total"` value of an arbitrary bucket. -/
lemma bumpBucket_bucketTotal {m : OuterMap} {key : String} {fresh : AList}
    {lbl : String} {a : Rat} {m2 : OuterMap} (hfresh : lookupT fresh = 0)
    (h : bumpBucket m key fresh lbl a = some m2) (k : String) :
    bucketTotal m2 k =
      bucketTotal m k + (if key = k then a + (if lbl = "total" then a else 0) else 0) := by
  unfold bumpBucket at h
  simp only at h
  by_cases hk : hasKeyA m key = true
  · rw [if_pos hk] at h
    obtain ⟨v, v2, hv, hfv, hlook⟩ := modifyAtKey_eq_some h
    by_cases h2 : key = k
    · subst h2
      unfold bucketTotal
      rw [hlook key, if_pos rfl, hv]
      simp only [Option.getD_some, if_pos rfl]
      rw [bump2_lookupT hfv]
      simp [add_assoc]
    · unfold bucketTotal
      rw [hlook k, if_neg (fun hh => h2 hh.symm), if_neg h2]
      ring
  · rw [if_neg hk] at h
    obtain ⟨v, v2, hv, hfv, hlook⟩ := modifyAtKey_eq_some h
    have hnone : lookupA m key = none := by
      unfold hasKeyA at hk
      exact Option.not_isSome_iff_eq_none.mp (by simpa using hk)
    have hvf : v = fresh := by
      rw [lookupA_append, hnone] at hv
      simp [lookupA] at hv
      exact hv.symm
    by_cases h2 : key = k
    · subst h2
      unfold bucketTotal
      rw [hlook key, if_pos rfl, hnone]
      simp only [Option.getD_some, Option.getD_none, if_pos rfl]
      rw [bump2_lookupT hfv, hvf, hfresh]
      simp [lookupT, lookupV, lookupA]
    · unfold bucketTotal
      rw [hlook k, if_neg (fun hh => h2 hh.symm), if_neg h2]
      rw [lookupA_append]
      have hsingle : lookupA [(key, fresh)] k = none := by
        simp [lookupA, h2]
      cases hmk : lookupA m k <;> simp [hsingle, hmk]

/-- `bumpBucket` preserves the key set of every bucket (assuming every
bucket has the key set of `fresh`). -/
lemma bumpBucket_wf {m : OuterMap} {key : String} {fresh : AList} {lbl : String}
    {a : Rat} {m2 : OuterMap}
    (hwf : ∀ p ∈ m, ∀ k2, hasKeyA p.2 k2 = hasKeyA fresh k2)
    (h : bumpBucket m key fresh lbl a = some m2) :
    ∀ p ∈ m2, ∀ k2, hasKeyA p.2 k2 = hasKeyA fresh k2 := by
  unfold bumpBucket at h
  intro p hp k2
  have hm1 : ∀ q ∈ (if hasKeyA m key = true then m else m ++ [(key, fresh)]),
      ∀ k3, hasKeyA q.2 k3 = hasKeyA fresh k3 := by
    intro q hq k3
    by_cases hk : hasKeyA m key = true
    · rw [if_pos hk] at hq
      exact hwf q hq k3
    · rw [if_neg hk] at hq
      rcases List.mem_append.mp hq with hq | hq
      · exact hwf q hq k3
      · simp at hq
        rw [hq]
  rcases modifyAtKey_mem h p hp with hpm | ⟨v, hv, hfv, _⟩
  · exact hm1 p hpm k2
  · have hvm := lookupA_mem hv
    rw [bump2_hasKey hfv k2]
    exact hm1 _ hvm k2

/-- Success of `bumpBucket` depends only on the key set of `fresh`
(assuming every bucket has the key set of `fresh`). -/
lemma bumpBucket_isSome {m : OuterMap} {key : String} {fresh : AList}
    {lbl : String} {a : Rat}
    (hwf : ∀ p ∈ m, ∀ k2, hasKeyA p.2 k2 = hasKeyA fresh k2) :
    (bumpBucket m key fresh lbl a).isSome =
      (hasKeyA fresh "total" && hasKeyA fresh lbl) := by
  unfold bumpBucket
  have hm1 : ∀ q ∈ (if hasKeyA m key = true then m else m ++ [(key, fresh)]),
      ∀ k3, hasKeyA q.2 k3 = hasKeyA fresh k3 := by
    intro q hq k3
    by_cases hk : hasKeyA m key = true
    · rw [if_pos hk] at hq
      exact hwf q hq k3
    · rw [if_neg hk] at hq
      rcases List.mem_append.mp hq with hq | hq
      · exact hwf q hq k3
      · simp at hq
        rw [hq]
  have hkey : ∃ v, lookupA (if hasKeyA m key = true then m else m ++ [(key, fresh)]) key = some v := by
    by_cases hk : hasKeyA m key = true
    · rw [if_pos hk]
      exact Option.isSome_iff_exists.mp (by simpa [hasKeyA] using hk)
    · rw [if_neg hk]
      have hnone : lookupA m key = none := by
        unfold hasKeyA at hk
        exact Option.not_isSome_iff_eq_none.mp (by simpa using hk)
      refine ⟨fresh, ?_⟩
      rw [lookupA_append, hnone]
      simp [lookupA]
  obtain ⟨v, hv⟩ := hkey
  by_cases hok : (hasKeyA fresh "total" && hasKeyA fresh lbl) = true
  · rw [hok]
    rw [Bool.eq_iff_iff]
    simp only [iff_true]
    rw [modifyAtKey_isSome_iff]
    refine ⟨v, hv, ?_⟩
    rw [bump2_isSome]
    have := hm1 _ (lookupA_mem hv)
    rw [this "total", this lbl]
    exact hok
  · rw [Bool.eq_iff_iff]
    constructor
    · intro hs
      obtain ⟨v2, hv2, hfv2⟩ := modifyAtKey_isSome_iff.mp hs
      rw [bump2_isSome] at hfv2
      have := hm1 _ (lookupA_mem hv2)
      rw [this "total", this lbl] at hfv2
      exact absurd hfv2 hok
    · intro hs
      exact absurd hs hok

/-! ### Effect lemmas for one loop step and for whole loops -/

lemma colStep_eq_some {fresh : AList} {it : LoopItem} {cs cs2 : ColState}
    (h : colStep fresh it cs = some cs2) :
    ∃ t dm wm, bump2 cs.totals it.label it.amount = some t ∧
      bumpBucket cs.daily it.date.isoformat fresh it.label it.amount = some dm ∧
      bumpBucket cs.weekly (weekKey it.date) fresh it.label it.amount = some wm ∧
      cs2 = ⟨t, dm, wm⟩ := by
  unfold colStep at h
  cases h1 : bump2 cs.totals it.label it.amount with
  | none => rw [h1] at h; simp at h
  | some t =>
    rw [h1] at h; simp only [Option.some_bind] at h
    cases h2 : bumpBucket cs.daily it.date.isoformat fresh it.label it.amount with
    | none => rw [h2] at h; simp at h
    | some dm =>
      rw [h2] at h; simp only [Option.some_bind] at h
      cases h3 : bumpBucket cs.weekly (weekKey it.date) fresh it.label it.amount with
      | none => rw [h3] at h; simp at h
      | some wm =>
        rw [h3] at h; simp only [Option.map_some'] at h
        cases h
        exact ⟨t, dm, wm, rfl, rfl, rfl, rfl⟩

lemma colStep_lookupT {fresh : AList} {it : LoopItem} {cs cs2 : ColState}
    (h : colStep fresh it cs = some cs2) :
    lookupT cs2.totals = lookupT cs.totals + contrib it := by
  obtain ⟨t, dm, wm, h1, _, _, rfl⟩ := colStep_eq_some h
  simpa [contrib, add_assoc] using bump2_lookupT h1

lemma colStep_lookupV_ne {fresh : AList} {it : LoopItem} {cs cs2 : ColState}
    (h : colStep fresh it cs = some cs2) {k : String} (hk : k ≠ "total") :
    lookupV cs2.totals k = lookupV cs.totals k + (if it.label = k then it.amount else 0) := by
  obtain ⟨t, dm, wm, h1, _, _, rfl⟩ := colStep_eq_some h
  exact bump2_lookupV_ne h1 hk

lemma colStep_sums {fresh : AList} {it : LoopItem} {cs cs2 : ColState}
    (hfresh : lookupT fresh = 0) (h : colStep fresh it cs = some cs2) :
    sumBucketTotals cs2.daily = sumBucketTotals cs.daily + contrib it ∧
    sumBucketTotals cs2.weekly = sumBucketTotals cs.weekly + contrib it := by
  obtain ⟨t, dm, wm, _, h2, h3, rfl⟩ := colStep_eq_some h
  constructor
  · simpa [contrib, add_assoc] using bumpBucket_sum hfresh h2
  · simpa [contrib, add_assoc] using bumpBucket_sum hfresh h3

lemma colStep_weekBucket {fresh : AList} {it : LoopItem} {cs cs2 : ColState}
    (hfresh : lookupT fresh = 0) (h : colStep fresh it cs = some cs2) (k : String) :
    bucketTotal cs2.weekly k =
      bucketTotal cs.weekly k + (if weekKey it.date = k then contrib it else 0) := by
  obtain ⟨t, dm, wm, _, _, h3, rfl⟩ := colStep_eq_some h
  simpa [contrib, add_assoc] using bumpBucket_bucketTotal hfresh h3 k

lemma colStep_wf {fresh : AList} {it : LoopItem} {cs cs2 : ColState}
    (h : colStep fresh it cs = some cs2)
    (hwfT : ∀ k, hasKeyA cs.totals k = hasKeyA fresh k)
    (hwfD : ∀ p ∈ cs.daily, ∀ k, hasKeyA p.2 k = hasKeyA fresh k)
    (hwfW : ∀ p ∈ cs.weekly, ∀ k, hasKeyA p.2 k = hasKeyA fresh k) :
    (∀ k, hasKeyA cs2.totals k = hasKeyA fresh k) ∧
    (∀ p ∈ cs2.daily, ∀ k, hasKeyA p.2 k = hasKeyA fresh k) ∧
    (∀ p ∈ cs2.weekly, ∀ k, hasKeyA p.2 k = hasKeyA fresh k) := by
  obtain ⟨t, dm, wm, h1, h2, h3, rfl⟩ := colStep_eq_some h
  exact ⟨fun k => by rw [bump2_hasKey h1 k]; exact hwfT k,
    bumpBucket_wf hwfD h2, bumpBucket_wf hwfW h3⟩

lemma colStep_isSome {fresh : AList} {it : LoopItem} {cs : ColState}
    (hwfT : ∀ k, hasKeyA cs.totals k = hasKeyA fresh k)
    (hwfD : ∀ p ∈ cs.daily, ∀ k, hasKeyA p.2 k = hasKeyA fresh k)
    (hwfW : ∀ p ∈ cs.weekly, ∀ k, hasKeyA p.2 k = hasKeyA fresh k)
    (htot : hasKeyA fresh "total" = true) :
    (colStep fresh it cs).isSome = hasKeyA fresh it.label := by
  unfold colStep
  by_cases hl : hasKeyA fresh it.label = true
  · have h1 : (bump2 cs.totals it.label it.amount).isSome = true := by
      rw [bump2_isSome, hwfT, hwfT, htot, hl]; rfl
    obtain ⟨t, ht⟩ := Option.isSome_iff_exists.mp h1
    rw [ht]; simp only [Option.some_bind]
    have h2 : (bumpBucket cs.daily it.date.isoformat fresh it.label it.amount).isSome = true := by
      rw [bumpBucket_isSome hwfD, htot, hl]; rfl
    obtain ⟨dm, hdm⟩ := Option.isSome_iff_exists.mp h2
    rw [hdm]; simp only [Option.some_bind]
    have h3 : (bumpBucket cs.weekly (weekKey it.date) fresh it.label it.amount).isSome = true := by
      rw [bumpBucket_isSome hwfW, htot, hl]; rfl
    obtain ⟨wm, hwm⟩ := Option.isSome_iff_exists.mp h3
    rw [hwm, hl]
    rfl
  · have hlf : hasKeyA fresh it.label = false := Bool.not_eq_true _ ▸ (by simpa using hl)
    have h1 : (bump2 cs.totals it.label it.amount).isSome = false := by
      rw [bump2_isSome, hwfT, hwfT, htot, hlf]; rfl
    have h1n : bump2 cs.totals it.label it.amount = none :=
      Option.not_isSome_iff_eq_none.mp (by simp [h1])
    rw [h1n, hlf]
    rfl

lemma processCol_lookupT {dF : Option Date} {wF mF : Option (Nat × Nat)}
    {fresh : AList} {inc : Bool} :
    ∀ {items : List LoopItem} {cs : ColState} {cash mpesa : Rat}
      {st2 : ColState × Rat × Rat},
      processCol dF wF mF fresh inc items (cs, cash, mpesa) = some st2 →
      lookupT st2.1.totals = lookupT cs.totals +
        ((includedItems dF wF mF items).map contrib).sum := by
  intro items
  induction items with
  | nil =>
    intro cs cash mpesa st2 h
    simp only [processCol] at h
    cases h
    simp [includedItems]
  | cons it rest ih =>
    intro cs cash mpesa st2 h
    simp only [processCol] at h
    by_cases hm : matchesFilter it.date dF wF mF = true
    · rw [if_pos hm] at h
      cases hcs : colStep fresh it cs with
      | none => rw [hcs] at h; simp at h
      | some cs2 =>
        rw [hcs] at h
        simp only at h
        have step := colStep_lookupT hcs
        by_cases hp : it.payment_mode = "Cash"
        · rw [if_pos hp] at h
          rw [ih h, step]
          simp [includedItems, List.filter_cons, hm]
          ring
        · rw [if_neg hp] at h
          rw [ih h, step]
          simp [includedItems, List.filter_cons, hm]
          ring
    · rw [if_neg hm] at h
      rw [ih h]
      simp [includedItems, List.filter_cons, hm]

lemma processCol_lookupV {dF : Option Date} {wF mF : Option (Nat × Nat)}
    {fresh : AList} {inc : Bool} {k : String} (hk : k ≠ "total") :
    ∀ {items : List LoopItem} {cs : ColState} {cash mpesa : Rat}
      {st2 : ColState × Rat × Rat},
      processCol dF wF mF fresh inc items (cs, cash, mpesa) = some st2 →
      lookupV st2.1.totals k = lookupV cs.totals k +
        (((includedItems dF wF mF items).filter (fun it => it.label == k)).map
          (fun it => it.amount)).sum := by
  intro items
  induction items with
  | nil =>
    intro cs cash mpesa st2 h
    simp only [processCol] at h
    cases h
    simp [includedItems]
  | cons it rest ih =>
    intro cs cash mpesa st2 h
    simp only [processCol] at h
    by_cases hm : matchesFilter it.date dF wF mF = true
    · rw [if_pos hm] at h
      cases hcs : colStep fresh it cs with
      | none => rw [hcs] at h; simp at h
      | some cs2 =>
        rw [hcs] at h
        simp only at h
        have step := colStep_lookupV_ne hcs hk
        by_cases hlbl : it.label = k
        · have hrec : lookupV st2.1.totals k = lookupV cs2.totals k +
              (((includedItems dF wF mF rest).filter (fun it => it.label == k)).map
                (fun it => it.amount)).sum := by
            by_cases hp : it.payment_mode = "Cash"
            · rw [if_pos hp] at h; exact ih h
            · rw [if_neg hp] at h; exact ih h
          rw [hrec, step]
          simp [includedItems, List.filter_cons, hm, hlbl]
          ring
        · have hrec : lookupV st2.1.totals k = lookupV cs2.totals k +
              (((includedItems dF wF mF rest).filter (fun it => it.label == k)).map
                (fun it => it.amount)).sum := by
            by_cases hp : it.payment_mode = "Cash"
            · rw [if_pos hp] at h; exact ih h
            · rw [if_neg hp] at h; exact ih h
          rw [hrec, step]
          simp [includedItems, List.filter_cons, hm, hlbl]
    · rw [if_neg hm] at h
      rw [ih h]
      simp [includedItems, List.filter_cons, hm]

lemma processCol_sums {dF : Option Date} {wF mF : Option (Nat × Nat)}
    {fresh : AList} {inc : Bool} (hfresh : lookupT fresh = 0) :
    ∀ {items : List LoopItem} {cs : ColState} {cash mpesa : Rat}
      {st2 : ColState × Rat × Rat},
      processCol dF wF mF fresh inc items (cs, cash, mpesa) = some st2 →
      sumBucketTotals st2.1.daily = sumBucketTotals cs.daily +
        ((includedItems dF wF mF items).map contrib).sum ∧
      sumBucketTotals st2.1.weekly = sumBucketTotals cs.weekly +
        ((includedItems dF wF mF items).map contrib).sum := by
  intro items
  induction items with
  | nil =>
    intro cs cash mpesa st2 h
    simp only [processCol] at h
    cases h
    simp [includedItems]
  | cons it rest ih =>
    intro cs cash mpesa st2 h
    simp only [processCol] at h
    by_cases hm : matchesFilter it.date dF wF mF = true
    · rw [if_pos hm] at h
      cases hcs : colStep fresh it cs with
      | none => rw [hcs] at h; simp at h
      | some cs2 =>
        rw [hcs] at h
        simp only at h
        obtain ⟨stepD, stepW⟩ := colStep_sums hfresh hcs
        have hrec : sumBucketTotals st2.1.daily = sumBucketTotals cs2.daily +
              ((includedItems dF wF mF rest).map contrib).sum ∧
            sumBucketTotals st2.1.weekly = sumBucketTotals cs2.weekly +
              ((includedItems dF wF mF rest).map contrib).sum := by
          by_cases hp : it.payment_mode = "Cash"
          · rw [if_pos hp] at h; exact ih h
          · rw [if_neg hp] at h; exact ih h
        refine ⟨?_, ?_⟩
        · rw [hrec.1, stepD]
          simp [includedItems, List.filter_cons, hm]
          ring
        · rw [hrec.2, stepW]
          simp [includedItems, List.filter_cons, hm]
          ring
    · rw [if_neg hm] at h
      obtain ⟨h1, h2⟩ := ih h
      rw [h1, h2]
      simp [includedItems, List.filter_cons, hm]

lemma processCol_weekBucket {dF : Option Date} {wF mF : Option (Nat × Nat)}
    {fresh : AList} {inc : Bool} (hfresh : lookupT fresh = 0) (k : String) :
    ∀ {items : List LoopItem} {cs : ColState} {cash mpesa : Rat}
      {st2 : ColState × Rat × Rat},
      processCol dF wF mF fresh inc items (cs, cash, mpesa) = some st2 →
      bucketTotal st2.1.weekly k = bucketTotal cs.weekly k +
        (((includedItems dF wF mF items).filter
          (fun it => weekKey it.date == k)).map contrib).sum := by
  intro items
  induction items with
  | nil =>
    intro cs cash mpesa st2 h
    simp only [processCol] at h
    cases h
    simp [includedItems]
  | cons it rest ih =>
    intro cs cash mpesa st2 h
    simp only [processCol] at h
    by_cases hm : matchesFilter it.date dF wF mF = true
    · rw [if_pos hm] at h
      cases hcs : colStep fresh it cs with
      | none => rw [hcs] at h; simp at h
      | some cs2 =>
        rw [hcs] at h
        simp only at h
        have step := colStep_weekBucket hfresh hcs k
        have hrec : bucketTotal st2.1.weekly k = bucketTotal cs2.weekly k +
            (((includedItems dF wF mF rest).filter
              (fun it => weekKey it.date == k)).map contrib).sum := by
          by_cases hp : it.payment_mode = "Cash"
          · rw [if_pos hp] at h; exact ih h
          · rw [if_neg hp] at h; exact ih h
        by_cases hwk : weekKey it.date = k
        · rw [hrec, step]
          simp [includedItems, List.filter_cons, hm, hwk]
          ring
        · rw [hrec, step]
          simp [includedItems, List.filter_cons, hm, hwk]
    · rw [if_neg hm] at h
      rw [ih h]
      simp [includedItems, List.filter_cons, hm]

lemma processCol_isSome {dF : Option Date} {wF mF : Option (Nat × Nat)}
    {fresh : AList} {inc : Bool} (htot : hasKeyA fresh "total" = true) :
    ∀ {items : List LoopItem} {cs : ColState} {cash mpesa : Rat},
      (∀ k, hasKeyA cs.totals k = hasKeyA fresh k) →
      (∀ p ∈ cs.daily, ∀ k, hasKeyA p.2 k = hasKeyA fresh k) →
      (∀ p ∈ cs.weekly, ∀ k, hasKeyA p.2 k = hasKeyA fresh k) →
      ((processCol dF wF mF fresh inc items (cs, cash, mpesa)).isSome = true ↔
        ∀ it ∈ items, matchesFilter it.date dF wF mF = true →
          hasKeyA fresh it.label = true) := by
  intro items
  induction items with
  | nil =>
    intro cs cash mpesa _ _ _
    simp [processCol]
  | cons it rest ih =>
    intro cs cash mpesa hwfT hwfD hwfW
    simp only [processCol]
    by_cases hm : matchesFilter it.date dF wF mF = true
    · rw [if_pos hm]
      have hstep := @colStep_isSome fresh it _ hwfT hwfD hwfW htot
      by_cases hl : hasKeyA fresh it.label = true
      · rw [hl] at hstep
        obtain ⟨cs2, hcs⟩ := Option.isSome_iff_exists.mp hstep
        rw [hcs]
        simp only
        obtain ⟨hT2, hD2, hW2⟩ := colStep_wf hcs hwfT hwfD hwfW
        have hiff : ∀ cash2 mpesa2 : Rat,
            ((processCol dF wF mF fresh inc rest (cs2, cash2, mpesa2)).isSome = true ↔
              ∀ it2 ∈ rest, matchesFilter it2.date dF wF mF = true →
                hasKeyA fresh it2.label = true) :=
          fun cash2 mpesa2 => ih hT2 hD2 hW2
        by_cases hp : it.payment_mode = "Cash"
        · rw [if_pos hp]
          rw [hiff]
          constructor
          · intro hr it2 hit2 hm2
            rcases List.mem_cons.mp hit2 with h1 | h1
            · subst h1; exact hl
            · exact hr it2 h1 hm2
          · intro hr it2 hit2 hm2
            exact hr it2 (List.mem_cons_of_mem _ hit2) hm2
        · rw [if_neg hp]
          rw [hiff]
          constructor
          · intro hr it2 hit2 hm2
            rcases List.mem_cons.mp hit2 with h1 | h1
            · subst h1; exact hl
            · exact hr it2 h1 hm2
          · intro hr it2 hit2 hm2
            exact hr it2 (List.mem_cons_of_mem _ hit2) hm2
      · have hlf : (colStep fresh it cs).isSome = false := by
          rw [hstep]
          simpa using hl
        have hnone : colStep fresh it cs = none :=
          Option.not_isSome_iff_eq_none.mp (by simp [hlf])
        rw [hnone]
        simp only [Option.isSome_none]
        constructor
        · intro hfalse; cases hfalse
        · intro hr
          exact absurd (hr it (List.mem_cons_self _ _) hm) hl
    · rw [if_neg hm]
      rw [ih hwfT hwfD hwfW]
      constructor
      · intro hr it2 hit2 hm2
        rcases List.mem_cons.mp hit2 with h1 | h1
        · subst h1; exact absurd hm2 hm
        · exact hr it2 h1 hm2
      · intro hr it2 hit2 hm2
        exact hr it2 (List.mem_cons_of_mem _ hit2) hm2

/-! ### The initial totals dictionaries -/

lemma lookupA_setKeyA (m : AList) (k : String) (v : Rat) (k2 : String) :
    lookupA (setKeyA m k v) k2 = if k2 = k then some v else lookupA m k2 := by
  induction m with
  | nil =>
    by_cases h : k2 = k
    · subst h; simp [setKeyA, lookupA]
    · have hs : ¬ (k = k2) := fun hh => h hh.symm
      simp [setKeyA, lookupA, h, hs]
  | cons p t ih =>
    obtain ⟨pk, pv⟩ := p
    by_cases hpk : pk = k
    · subst hpk
      simp only [setKeyA, if_pos rfl]
      by_cases h2 : k2 = pk
      · subst h2; simp [lookupA]
      · have hs : ¬ (pk = k2) := fun hh => h2 hh.symm
        simp [lookupA, h2, hs]
    · simp only [setKeyA, if_neg hpk]
      by_cases h2 : pk = k2
      · subst h2
        simp [lookupA, hpk, fun hh : pk = k => hpk hh]
      · simp [lookupA, h2, ih]

lemma hasKeyA_foldl_dict (keys : List String) :
    ∀ (m : AList) (k : String),
      hasKeyA (keys.foldl (fun m k0 => if hasKeyA m k0 then m else m ++ [(k0, (0 : Rat))]) m) k
        = (hasKeyA m k || keys.contains k) := by
  induction keys with
  | nil => intro m k; simp
  | cons k0 keys ih =>
    intro m k
    simp only [List.foldl_cons]
    rw [ih]
    have hstep : hasKeyA (if hasKeyA m k0 = true then m else m ++ [(k0, (0 : Rat))]) k
        = (hasKeyA m k || k == k0) := by
      by_cases hk0 : hasKeyA m k0 = true
      · rw [if_pos hk0]
        by_cases hkk : k = k0
        · subst hkk; simp [hk0]
        · simp [hkk]
      · rw [if_neg hk0]
        unfold hasKeyA
        rw [lookupA_append]
        cases hmk : lookupA m k with
        | some v => simp [hasKeyA, hmk]
        | none =>
          simp only [hasKeyA, hmk]
          by_cases hkk : k0 = k
          · subst hkk; simp [lookupA]
          · have hs : ¬ (k = k0) := fun hh => hkk hh.symm
            simp [lookupA, hkk, hs]
    rw [hstep]
    by_cases h1 : (k == k0) = true
    · simp only [List.contains_cons]
      have h1e : k = k0 := by simpa using h1
      simp [h1, h1e]
    · have h1f : (k == k0) = false := by simpa using h1
      have h1e : ¬ (k = k0) := by simpa using h1
      simp [List.contains_cons, h1f, h1e]

lemma hasKeyA_dictFromKeys (keys : List String) (k : String) :
    hasKeyA (dictFromKeys keys) k = keys.contains k := by
  unfold dictFromKeys
  rw [hasKeyA_foldl_dict]
  simp [hasKeyA, lookupA]

lemma hasKeyA_catInitTotals (cats : List String) (k : String) :
    hasKeyA (catInitTotals cats) k = (k == "total" || cats.contains k) := by
  unfold catInitTotals hasKeyA
  rw [lookupA_setKeyA]
  by_cases h : k = "total"
  · simp [h]
  · simp only [if_neg h]
    have hd := hasKeyA_dictFromKeys cats k
    unfold hasKeyA at hd
    rw [hd]
    simp [h]

lemma foldl_dict_values (keys : List String) :
    ∀ (m : AList), (∀ p ∈ m, p.2 = 0) →
      ∀ p ∈ keys.foldl (fun m k0 => if hasKeyA m k0 then m else m ++ [(k0, (0 : Rat))]) m,
        p.2 = 0 := by
  induction keys with
  | nil => intro m hm; simpa using hm
  | cons k0 keys ih =>
    intro m hm
    simp only [List.foldl_cons]
    apply ih
    intro p hp
    by_cases hk0 : hasKeyA m k0 = true
    · rw [if_pos hk0] at hp
      exact hm p hp
    · rw [if_neg hk0] at hp
      rcases List.mem_append.mp hp with h1 | h1
      · exact hm p h1
      · simp at h1
        rw [h1]

lemma dictFromKeys_values (keys : List String) :
    ∀ p ∈ dictFromKeys keys, p.2 = 0 := by
  unfold dictFromKeys
  exact foldl_dict_values keys [] (by simp)

lemma setKeyA_values {m : AList} (hm : ∀ p ∈ m, p.2 = 0) (k : String) :
    ∀ p ∈ setKeyA m k 0, p.2 = 0 := by
  induction m with
  | nil => simp [setKeyA]
  | cons q t ih =>
    obtain ⟨pk, pv⟩ := q
    by_cases hpk : pk = k
    · subst hpk
      simp only [setKeyA, if_pos rfl]
      intro p hp
      rcases List.mem_cons.mp hp with h1 | h1
      · rw [h1]
      · exact hm p (List.mem_cons_of_mem _ h1)
    · simp only [setKeyA, if_neg hpk]
      intro p hp
      rcases List.mem_cons.mp hp with h1 | h1
      · rw [h1]
        exact hm (pk, pv) (List.mem_cons_self _ _)
      · exact ih (fun q hq => hm q (List.mem_cons_of_mem _ hq)) p h1

lemma lookupV_catInitTotals (cats : List String) (k : String) :
    lookupV (catInitTotals cats) k = 0 := by
  unfold lookupV
  cases hlk : lookupA (catInitTotals cats) k with
  | none => rfl
  | some v =>
    have hmem := lookupA_mem hlk
    have := setKeyA_values (dictFromKeys_values cats) "total" _ hmem
    simpa using this

lemma lookupT_catInitTotals (cats : List String) : lookupT (catInitTotals cats) = 0 :=
  lookupV_catInitTotals cats "total"

lemma lookupT_incomeInitTotals : lookupT incomeInitTotals = 0 := rfl

lemma hasKeyA_catInitTotals_total (cats : List String) :
    hasKeyA (catInitTotals cats) "total" = true := by
  rw [hasKeyA_catInitTotals]
  simp

lemma hasKeyA_incomeInitTotals_iff (k : String) :
    hasKeyA incomeInitTotals k = true ↔
      (k = "total" ∨ k = "Uber" ∨ k = "Bolt" ∨ k = "Littlecab" ∨ k = "Offline") := by
  simp only [hasKeyA, incomeInitTotals, lookupA]
  by_cases h1 : "total" = k
  · subst h1; simp
  · rw [if_neg h1]
    by_cases h2 : "Uber" = k
    · subst h2; simp
    · rw [if_neg h2]
      by_cases h3 : "Bolt" = k
      · subst h3; simp
      · rw [if_neg h3]
        by_cases h4 : "Littlecab" = k
        · subst h4; simp
        · rw [if_neg h4]
          by_cases h5 : "Offline" = k
          · subst h5; simp
          · rw [if_neg h5]
            simp only [Option.isSome_none, Bool.false_eq_true, false_iff]
            push_neg
            exact ⟨fun hh => h1 hh.symm, fun hh => h2 hh.symm, fun hh => h3 hh.symm,
              fun hh => h4 hh.symm, fun hh => h5 hh.symm⟩

lemma processCol_wf {dF : Option Date} {wF mF : Option (Nat × Nat)}
    {fresh : AList} {inc : Bool} :
    ∀ {items : List LoopItem} {cs : ColState} {cash mpesa : Rat}
      {st2 : ColState × Rat × Rat},
      processCol dF wF mF fresh inc items (cs, cash, mpesa) = some st2 →
      (∀ k, hasKeyA cs.totals k = hasKeyA fresh k) →
      (∀ p ∈ cs.daily, ∀ k, hasKeyA p.2 k = hasKeyA fresh k) →
      (∀ p ∈ cs.weekly, ∀ k, hasKeyA p.2 k = hasKeyA fresh k) →
      (∀ k, hasKeyA st2.1.totals k = hasKeyA fresh k) := by
  intro items
  induction items with
  | nil =>
    intro cs cash mpesa st2 h hT hD hW
    simp only [processCol] at h
    cases h
    exact hT
  | cons it rest ih =>
    intro cs cash mpesa st2 h hT hD hW
    simp only [processCol] at h
    by_cases hm : matchesFilter it.date dF wF mF = true
    · rw [if_pos hm] at h
      cases hcs : colStep fresh it cs with
      | none => rw [hcs] at h; simp at h
      | some cs2 =>
        rw [hcs] at h
        simp only at h
        obtain ⟨hT2, hD2, hW2⟩ := colStep_wf hcs hT hD hW
        by_cases hp : it.payment_mode = "Cash"
        · rw [if_pos hp] at h; exact ih h hT2 hD2 hW2
        · rw [if_neg hp] at h; exact ih h hT2 hD2 hW2
    · rw [if_neg hm] at h
      exact ih h hT hD hW

/-- Destructuring of a successful `calculate_totals` run into its three
`processCol` invocations. -/
lemma calculate_totals_eq_some {data : Data} {dF : Option Date}
    {wF mF : Option (Nat × Nat)} {r : CalcResult}
    (h : calculate_totals data dF wF mF = some r) :
    ∃ ic cash1 mp1 ec cash2 mp2 sc cash3 mp3,
      processCol dF wF mF incomeInitTotals true (data.income.map IncomeEntry.item)
        (⟨incomeInitTotals, [], []⟩, 0, 0) = some (ic, cash1, mp1) ∧
      processCol dF wF mF (catInitTotals data.expense_categories) false
        (data.expenses.map CatEntry.item)
        (⟨catInitTotals data.expense_categories, [], []⟩, cash1, mp1) = some (ec, cash2, mp2) ∧
      processCol dF wF mF (catInitTotals data.savings_categories) false
        (data.savings.map CatEntry.item)
        (⟨catInitTotals data.savings_categories, [], []⟩, cash2, mp2) = some (sc, cash3, mp3) ∧
      r = ⟨ic.totals, ec.totals, sc.totals, ic.daily, ec.daily, sc.daily,
        ic.weekly, ec.weekly, sc.weekly,
        (if data.savings_switch then lookupT ic.totals - lookupT ec.totals
          else lookupT ic.totals - lookupT ec.totals - lookupT sc.totals),
        (if data.savings_switch then
            lookupT sc.totals + max 0 (lookupT ic.totals - lookupT ec.totals)
          else lookupT sc.totals), cash3, mp3⟩ := by
  unfold calculate_totals at h
  cases h1 : processCol dF wF mF incomeInitTotals true (data.income.map IncomeEntry.item)
      (⟨incomeInitTotals, [], []⟩, 0, 0) with
  | none => rw [h1] at h; simp at h
  | some t1 =>
    obtain ⟨ic, cash1, mp1⟩ := t1
    rw [h1] at h
    simp only at h
    cases h2 : processCol dF wF mF (catInitTotals data.expense_categories) false
        (data.expenses.map CatEntry.item)
        (⟨catInitTotals data.expense_categories, [], []⟩, cash1, mp1) with
    | none => rw [h2] at h; simp at h
    | some t2 =>
      obtain ⟨ec, cash2, mp2⟩ := t2
      rw [h2] at h
      simp only at h
      cases h3 : processCol dF wF mF (catInitTotals data.savings_categories) false
          (data.savings.map CatEntry.item)
          (⟨catInitTotals data.savings_categories, [], []⟩, cash2, mp2) with
      | none => rw [h3] at h; simp at h
      | some t3 =>
        obtain ⟨sc, cash3, mp3⟩ := t3
        rw [h3] at h
        simp only at h
        cases h
        exact ⟨ic, cash1, mp1, ec, cash2, mp2, sc, cash3, mp3, rfl, h2, h3, rfl⟩

/-! ### Bridging the fold totals to the specification-side sums -/

lemma map_contrib_eq_amountSum {items l2 : List LoopItem}
    (hl : ∀ it ∈ items, it.label ≠ "total") (hsub : ∀ it ∈ l2, it ∈ items) :
    (l2.map contrib).sum = amountSum l2 := by
  unfold amountSum
  have : l2.map contrib = l2.map (fun it => it.amount) := by
    apply List.map_congr_left
    intro it hit
    unfold contrib
    rw [if_neg (hl it (hsub it hit))]
    ring
  rw [this]

lemma income_items_label {data : Data}
    (hI : ∀ e ∈ data.income, e.platform ≠ "total") :
    ∀ it ∈ data.income.map IncomeEntry.item, it.label ≠ "total" := by
  intro it hit
  obtain ⟨e, he, rfl⟩ := List.mem_map.mp hit
  exact hI e he

lemma cat_items_label {l : List CatEntry}
    (hC : ∀ e ∈ l, e.category ≠ "total") :
    ∀ it ∈ l.map CatEntry.item, it.label ≠ "total" := by
  intro it hit
  obtain ⟨e, he, rfl⟩ := List.mem_map.mp hit
  exact hC e he

/-- C5 helper: the grand total of one collection equals both of its own
bucket-total sums. -/
lemma processCol_consistent {dF : Option Date} {wF mF : Option (Nat × Nat)}
    {fresh : AList} {inc : Bool} {items : List LoopItem} {cash mpesa : Rat}
    {cs2 : ColState} {cash2 mpesa2 : Rat} (hfresh : lookupT fresh = 0)
    (h : processCol dF wF mF fresh inc items (⟨fresh, [], []⟩, cash, mpesa)
      = some (cs2, cash2, mpesa2)) :
    lookupT cs2.totals = sumBucketTotals cs2.daily ∧
    lookupT cs2.totals = sumBucketTotals cs2.weekly := by
  have e1 : lookupT cs2.totals = lookupT fresh +
      ((includedItems dF wF mF items).map contrib).sum := processCol_lookupT h
  have e2 : sumBucketTotals cs2.daily = sumBucketTotals ([] : OuterMap) +
        ((includedItems dF wF mF items).map contrib).sum ∧
      sumBucketTotals cs2.weekly = sumBucketTotals ([] : OuterMap) +
        ((includedItems dF wF mF items).map contrib).sum := processCol_sums hfresh h
  have hz : sumBucketTotals ([] : OuterMap) = 0 := rfl
  rw [e1, e2.1, e2.2, hfresh, hz]
  exact ⟨rfl, rfl⟩

/-- C5: for every ledger and every filter, and separately for each of the
three collections, the grand total computed by `calculate_totals` equals
the sum of its per-day bucket totals, and also the sum of its per-week
bucket totals. -/
theorem totals_agree_with_buckets (data : Data) (dF : Option Date)
    (wF mF : Option (Nat × Nat)) (r : CalcResult)
    (h : calculate_totals data dF wF mF = some r) :
    (lookupT r.income_totals = sumBucketTotals r.daily_income ∧
     lookupT r.income_totals = sumBucketTotals r.weekly_income) ∧
    (lookupT r.expense_totals = sumBucketTotals r.daily_expense ∧
     lookupT r.expense_totals = sumBucketTotals r.weekly_expense) ∧
    (lookupT r.savings_totals = sumBucketTotals r.daily_savings ∧
     lookupT r.savings_totals = sumBucketTotals r.weekly_savings) := by
  obtain ⟨ic, cash1, mp1, ec, cash2, mp2, sc, cash3, mp3, h1, h2, h3, hr⟩ :=
    calculate_totals_eq_some h
  subst hr
  exact ⟨processCol_consistent lookupT_incomeInitTotals h1,
    processCol_consistent (lookupT_catInitTotals data.expense_categories) h2,
    processCol_consistent (lookupT_catInitTotals data.savings_categories) h3⟩

lemma processCol_total_spec {dF : Option Date} {wF mF : Option (Nat × Nat)}
    {fresh : AList} {inc : Bool} {items : List LoopItem} {cash mpesa : Rat}
    {cs2 : ColState} {cash2 mpesa2 : Rat} (hfresh : lookupT fresh = 0)
    (hl : ∀ it ∈ items, it.label ≠ "total")
    (h : processCol dF wF mF fresh inc items (⟨fresh, [], []⟩, cash, mpesa)
      = some (cs2, cash2, mpesa2)) :
    lookupT cs2.totals = amountSum (includedItems dF wF mF items) := by
  have e1 : lookupT cs2.totals = lookupT fresh +
      ((includedItems dF wF mF items).map contrib).sum := processCol_lookupT h
  have hsub : ∀ it ∈ includedItems dF wF mF items, it ∈ items :=
    fun it hit => List.mem_of_mem_filter hit
  rw [e1, hfresh, map_contrib_eq_amountSum hl hsub]
  ring

/-- C2: for every ledger and filter, when `savings_switch` is off the
returned balance is `income − expense − savings` and the reported savings
are exactly the recorded savings; when it is on, the balance is
`income − expense` and the reported savings are the recorded savings plus
`max 0 balance`.  (The totals are expressed as specification-side sums of
the filtered entries; the hypotheses exclude entries abusing the reserved
dictionary key `"total"` as a platform or category name.) -/
theorem balance_savings_switch_spec (data : Data) (dF : Option Date)
    (wF mF : Option (Nat × Nat)) (r : CalcResult)
    (h : calculate_totals data dF wF mF = some r)
    (hI : ∀ e ∈ data.income, e.platform ≠ "total")
    (hE : ∀ e ∈ data.expenses, e.category ≠ "total")
    (hS : ∀ e ∈ data.savings, e.category ≠ "total") :
    r.balance = (if data.savings_switch then
        specIncomeTotal data dF wF mF - specExpenseTotal data dF wF mF
      else specIncomeTotal data dF wF mF - specExpenseTotal data dF wF mF
        - specSavingsTotal data dF wF mF) ∧
    r.total_savings = (if data.savings_switch then
        specSavingsTotal data dF wF mF +
          max 0 (specIncomeTotal data dF wF mF - specExpenseTotal data dF wF mF)
      else specSavingsTotal data dF wF mF) := by
  obtain ⟨ic, cash1, mp1, ec, cash2, mp2, sc, cash3, mp3, h1, h2, h3, hr⟩ :=
    calculate_totals_eq_some h
  subst hr
  have e1 : lookupT ic.totals = specIncomeTotal data dF wF mF :=
    processCol_total_spec lookupT_incomeInitTotals (income_items_label hI) h1
  have e2 : lookupT ec.totals = specExpenseTotal data dF wF mF :=
    processCol_total_spec (lookupT_catInitTotals data.expense_categories)
      (cat_items_label hE) h2
  have e3 : lookupT sc.totals = specSavingsTotal data dF wF mF :=
    processCol_total_spec (lookupT_catInitTotals data.savings_categories)
      (cat_items_label hS) h3
  constructor
  · show (if data.savings_switch then lookupT ic.totals - lookupT ec.totals
      else lookupT ic.totals - lookupT ec.totals - lookupT sc.totals) = _
    rw [e1, e2, e3]
  · show (if data.savings_switch then
        lookupT sc.totals + max 0 (lookupT ic.totals - lookupT ec.totals)
      else lookupT sc.totals) = _
    rw [e1, e2, e3]

lemma includedItems_week (items : List LoopItem) (y w : Nat) :
    includedItems none (some (y, w)) none items = weekFilteredItems items y w := by
  unfold includedItems weekFilteredItems
  apply List.filter_congr
  intro it _
  simp [matchesFilter, inCalendarYearWeek]

lemma processCol_weekBuckets_spec {y w : Nat} {fresh : AList} {inc : Bool}
    {items : List LoopItem} {cash mpesa : Rat} {cs2 : ColState} {cash2 mpesa2 : Rat}
    (hfresh : lookupT fresh = 0) (hl : ∀ it ∈ items, it.label ≠ "total")
    (h : processCol none (some (y, w)) none fresh inc items (⟨fresh, [], []⟩, cash, mpesa)
      = some (cs2, cash2, mpesa2)) :
    weekBucketsMatch cs2.weekly items y w := by
  intro k
  have e : bucketTotal cs2.weekly k = bucketTotal ([] : OuterMap) k +
      (((includedItems none (some (y, w)) none items).filter
        (fun it => weekKey it.date == k)).map contrib).sum :=
    processCol_weekBucket hfresh k h
  have hz : bucketTotal ([] : OuterMap) k = 0 := rfl
  have hsub : ∀ it ∈ (includedItems none (some (y, w)) none items).filter
      (fun it => weekKey it.date == k), it ∈ items :=
    fun it hit => List.mem_of_mem_filter (List.mem_of_mem_filter hit)
  rw [e, hz, map_contrib_eq_amountSum hl hsub]
  rw [includedItems_week]
  ring

/-- C3 (amended): under a `(year, week)` filter the aggregation keeps
exactly the entries whose ISO week *number* matches the requested week and
whose *calendar* year matches the requested year, and every kept entry is
bucketed in the per-week maps under the `"{ISO year}-W{2-digit ISO week}"`
key taken from the entry's own ISO calendar. -/
theorem week_filter_totals_and_buckets (data : Data) (y w : Nat) (r : CalcResult)
    (h : calculate_totals data none (some (y, w)) none = some r)
    (hI : ∀ e ∈ data.income, e.platform ≠ "total")
    (hE : ∀ e ∈ data.expenses, e.category ≠ "total")
    (hS : ∀ e ∈ data.savings, e.category ≠ "total") :
    (lookupT r.income_totals =
        amountSum (weekFilteredItems (data.income.map IncomeEntry.item) y w) ∧
      lookupT r.expense_totals =
        amountSum (weekFilteredItems (data.expenses.map CatEntry.item) y w) ∧
      lookupT r.savings_totals =
        amountSum (weekFilteredItems (data.savings.map CatEntry.item) y w)) ∧
    (weekBucketsMatch r.weekly_income (data.income.map IncomeEntry.item) y w ∧
      weekBucketsMatch r.weekly_expense (data.expenses.map CatEntry.item) y w ∧
      weekBucketsMatch r.weekly_savings (data.savings.map CatEntry.item) y w) := by
  obtain ⟨ic, cash1, mp1, ec, cash2, mp2, sc, cash3, mp3, h1, h2, h3, hr⟩ :=
    calculate_totals_eq_some h
  subst hr
  refine ⟨⟨?_, ?_, ?_⟩, ?_, ?_, ?_⟩
  · have := processCol_total_spec lookupT_incomeInitTotals (income_items_label hI) h1
    rw [includedItems_week] at this
    exact this
  · have := processCol_total_spec (lookupT_catInitTotals data.expense_categories)
      (cat_items_label hE) h2
    rw [includedItems_week] at this
    exact this
  · have := processCol_total_spec (lookupT_catInitTotals data.savings_categories)
      (cat_items_label hS) h3
    rw [includedItems_week] at this
    exact this
  · exact processCol_weekBuckets_spec lookupT_incomeInitTotals
      (income_items_label hI) h1
  · exact processCol_weekBuckets_spec (lookupT_catInitTotals data.expense_categories)
      (cat_items_label hE) h2
  · exact processCol_weekBuckets_spec (lookupT_catInitTotals data.savings_categories)
      (cat_items_label hS) h3

/-! ### Definedness of the per-category accumulation (C10) -/

lemma lookupA_eq_some_of_hasKey {m : AList} {k : String}
    (h : hasKeyA m k = true) : lookupA m k = some (lookupV m k) := by
  unfold hasKeyA at h
  unfold lookupV
  cases hlk : lookupA m k with
  | none => rw [hlk] at h; simp at h
  | some v => simp

lemma hasKeyA_catInitTotals_iff (cats : List String) (k : String) :
    hasKeyA (catInitTotals cats) k = true ↔ (k = "total" ∨ k ∈ cats) := by
  rw [hasKeyA_catInitTotals]
  simp

lemma hasKeyA_incomeInitTotals_total : hasKeyA incomeInitTotals "total" = true := rfl

lemma nil_bucket_wf {fresh : AList} :
    ∀ p ∈ ([] : OuterMap), ∀ k, hasKeyA p.2 k = hasKeyA fresh k :=
  fun p hp => absurd hp (List.not_mem_nil p)

lemma income_goodLabels_iff (data : Data) (dF : Option Date) (wF mF : Option (Nat × Nat)) :
    (∀ it ∈ data.income.map IncomeEntry.item, matchesFilter it.date dF wF mF = true →
      hasKeyA incomeInitTotals it.label = true) ↔
    (∀ e ∈ data.income, matchesFilter e.date dF wF mF = true →
      e.platform = "total" ∨ e.platform = "Uber" ∨ e.platform = "Bolt" ∨
        e.platform = "Littlecab" ∨ e.platform = "Offline") := by
  constructor
  · intro h e he hm
    exact (hasKeyA_incomeInitTotals_iff _).mp (h e.item (List.mem_map_of_mem _ he) hm)
  · intro h it hit hm
    obtain ⟨e, he, rfl⟩ := List.mem_map.mp hit
    exact (hasKeyA_incomeInitTotals_iff _).mpr (h e he hm)

lemma cat_goodLabels_iff (l : List CatEntry) (cats : List String)
    (dF : Option Date) (wF mF : Option (Nat × Nat)) :
    (∀ it ∈ l.map CatEntry.item, matchesFilter it.date dF wF mF = true →
      hasKeyA (catInitTotals cats) it.label = true) ↔
    (∀ e ∈ l, matchesFilter e.date dF wF mF = true →
      e.category = "total" ∨ e.category ∈ cats) := by
  constructor
  · intro h e he hm
    exact (hasKeyA_catInitTotals_iff cats _).mp (h e.item (List.mem_map_of_mem _ he) hm)
  · intro h it hit hm
    obtain ⟨e, he, rfl⟩ := List.mem_map.mp hit
    exact (hasKeyA_catInitTotals_iff cats _).mpr (h e he hm)

lemma calculate_totals_some_of {data : Data} {dF : Option Date}
    {wF mF : Option (Nat × Nat)} {ic ec sc : ColState} {cash1 mp1 cash2 mp2 cash3 mp3 : Rat}
    (h1 : processCol dF wF mF incomeInitTotals true (data.income.map IncomeEntry.item)
      (⟨incomeInitTotals, [], []⟩, 0, 0) = some (ic, cash1, mp1))
    (h2 : processCol dF wF mF (catInitTotals data.expense_categories) false
      (data.expenses.map CatEntry.item)
      (⟨catInitTotals data.expense_categories, [], []⟩, cash1, mp1) = some (ec, cash2, mp2))
    (h3 : processCol dF wF mF (catInitTotals data.savings_categories) false
      (data.savings.map CatEntry.item)
      (⟨catInitTotals data.savings_categories, [], []⟩, cash2, mp2) = some (sc, cash3, mp3)) :
    (calculate_totals data dF wF mF).isSome = true := by
  simp only [calculate_totals, h1, h2, h3, Option.isSome_some]

lemma processCol_catSubtotals {dF : Option Date} {wF mF : Option (Nat × Nat)}
    {cats : List String} {inc : Bool} {items : List LoopItem}
    {cash mpesa : Rat} {cs2 : ColState} {cash2 mpesa2 : Rat}
    (h : processCol dF wF mF (catInitTotals cats) inc items
      (⟨catInitTotals cats, [], []⟩, cash, mpesa) = some (cs2, cash2, mpesa2)) :
    catSubtotalsOk cats cs2.totals items dF wF mF := by
  intro cat hcat
  have hwf : ∀ k, hasKeyA cs2.totals k = hasKeyA (catInitTotals cats) k :=
    processCol_wf h (fun _ => rfl) nil_bucket_wf nil_bucket_wf
  have hkey : hasKeyA cs2.totals cat = true := by
    rw [hwf cat]
    exact (hasKeyA_catInitTotals_iff cats cat).mpr (Or.inr hcat)
  refine ⟨hkey, ?_⟩
  intro hct
  have hv : lookupV cs2.totals cat = lookupV (catInitTotals cats) cat +
      (((includedItems dF wF mF items).filter (fun it => it.label == cat)).map
        (fun it => it.amount)).sum :=
    processCol_lookupV hct h
  rw [lookupV_catInitTotals, zero_add] at hv
  rw [lookupA_eq_some_of_hasKey hkey, hv]
  rfl

/-- C10 (amended): the aggregation returns totals exactly when every
filter-included income entry's platform is one of the five income keys and
every filter-included expense/savings entry's category is in the
corresponding category list or is the reserved key `"total"`; whenever it
does return totals, every listed category appears in them, with subtotal
equal to the sum of the matching included entries (zero when there are
none).  A filter-included entry whose category is outside the list and
different from `"total"` therefore makes the aggregation fail. -/
theorem category_accumulation_totality (data : Data) (dF : Option Date)
    (wF mF : Option (Nat × Nat)) :
    ((calculate_totals data dF wF mF).isSome = true ↔ goodLabels data dF wF mF) ∧
    subtotalsCorrect data dF wF mF := by
  constructor
  · constructor
    · intro hs
      obtain ⟨r, hr⟩ := Option.isSome_iff_exists.mp hs
      obtain ⟨ic, cash1, mp1, ec, cash2, mp2, sc, cash3, mp3, h1, h2, h3, _⟩ :=
        calculate_totals_eq_some hr
      have q1 : (processCol dF wF mF incomeInitTotals true
          (data.income.map IncomeEntry.item)
          (⟨incomeInitTotals, [], []⟩, 0, 0)).isSome = true := by rw [h1]; rfl
      have q2 : (processCol dF wF mF (catInitTotals data.expense_categories) false
          (data.expenses.map CatEntry.item)
          (⟨catInitTotals data.expense_categories, [], []⟩, cash1, mp1)).isSome = true := by
        rw [h2]; rfl
      have q3 : (processCol dF wF mF (catInitTotals data.savings_categories) false
          (data.savings.map CatEntry.item)
          (⟨catInitTotals data.savings_categories, [], []⟩, cash2, mp2)).isSome = true := by
        rw [h3]; rfl
      refine ⟨?_, ?_, ?_⟩
      · exact (income_goodLabels_iff data dF wF mF).mp
          ((processCol_isSome hasKeyA_incomeInitTotals_total (fun _ => rfl)
            nil_bucket_wf nil_bucket_wf).mp q1)
      · exact (cat_goodLabels_iff data.expenses data.expense_categories dF wF mF).mp
          ((processCol_isSome (hasKeyA_catInitTotals_total data.expense_categories)
            (fun _ => rfl) nil_bucket_wf nil_bucket_wf).mp q2)
      · exact (cat_goodLabels_iff data.savings data.savings_categories dF wF mF).mp
          ((processCol_isSome (hasKeyA_catInitTotals_total data.savings_categories)
            (fun _ => rfl) nil_bucket_wf nil_bucket_wf).mp q3)
    · rintro ⟨hgI, hgE, hgS⟩
      have p1 : (processCol dF wF mF incomeInitTotals true
          (data.income.map IncomeEntry.item)
          (⟨incomeInitTotals, [], []⟩, 0, 0)).isSome = true :=
        (processCol_isSome hasKeyA_incomeInitTotals_total (fun _ => rfl)
          nil_bucket_wf nil_bucket_wf).mpr
          ((income_goodLabels_iff data dF wF mF).mpr hgI)
      obtain ⟨t1, hp1⟩ := Option.isSome_iff_exists.mp p1
      obtain ⟨ic, cash1, mp1⟩ := t1
      have p2 : (processCol dF wF mF (catInitTotals data.expense_categories) false
          (data.expenses.map CatEntry.item)
          (⟨catInitTotals data.expense_categories, [], []⟩, cash1, mp1)).isSome = true :=
        (processCol_isSome (hasKeyA_catInitTotals_total data.expense_categories)
          (fun _ => rfl) nil_bucket_wf nil_bucket_wf).mpr
          ((cat_goodLabels_iff data.expenses data.expense_categories dF wF mF).mpr hgE)
      obtain ⟨t2, hp2⟩ := Option.isSome_iff_exists.mp p2
      obtain ⟨ec, cash2, mp2⟩ := t2
      have p3 : (processCol dF wF mF (catInitTotals data.savings_categories) false
          (data.savings.map CatEntry.item)
          (⟨catInitTotals data.savings_categories, [], []⟩, cash2, mp2)).isSome = true :=
        (processCol_isSome (hasKeyA_catInitTotals_total data.savings_categories)
          (fun _ => rfl) nil_bucket_wf nil_bucket_wf).mpr
          ((cat_goodLabels_iff data.savings data.savings_categories dF wF mF).mpr hgS)
      obtain ⟨t3, hp3⟩ := Option.isSome_iff_exists.mp p3
      obtain ⟨sc, cash3, mp3⟩ := t3
      exact calculate_totals_some_of hp1 hp2 hp3
  · intro r hr
    obtain ⟨ic, cash1, mp1, ec, cash2, mp2, sc, cash3, mp3, h1, h2, h3, hrr⟩ :=
      calculate_totals_eq_some hr
    subst hrr
    exact ⟨processCol_catSubtotals h2, processCol_catSubtotals h3⟩

/-- C1: balance verification passes if and only if the claimed
post-transaction balance is within ±10 of `B + amount` (income) or
`B − amount` (otherwise), where `B` is the running channel balance — the
sum of the amounts of all M-Pesa-mode income entries minus the amounts of
all M-Pesa-mode expense and savings entries in the ledger. -/
theorem verify_mpesa_balance_iff_within_tolerance (data : Data) (transaction : MTrans) :
    verify_mpesa_balance transaction data = true ↔
      |channelBalanceSpec data +
          (if transaction.type = "income" then transaction.amount
            else -transaction.amount)
        - transaction.balance| ≤ 10 := by
  have key : ∀ x : Rat,
      ((if |x - transaction.balance| > 10 then false else true) = true ↔
        |x - transaction.balance| ≤ 10) := by
    intro x
    split
    · next hgt => simp [not_le.mpr hgt]
    · next hle => simp [not_lt.mp hle]
  unfold verify_mpesa_balance
  rw [calculate_mpesa_balance_eq_spec]
  by_cases ht : transaction.type = "income"
  · simpa [ht] using key (channelBalanceSpec data + transaction.amount)
  · simpa [ht, sub_eq_add_neg] using key (channelBalanceSpec data - transaction.amount)

/-- C2 witness: on the concrete ledger (income 1000, expense 300,
savings 0, switch on) the theorem applies and gives balance 700 and
reported savings 700. -/
theorem balance_savings_switch_spec_witness :
    calculate_totals c2data none none none = some c2res ∧
    (c2res.balance = (if c2data.savings_switch then
        specIncomeTotal c2data none none none - specExpenseTotal c2data none none none
      else specIncomeTotal c2data none none none - specExpenseTotal c2data none none none
        - specSavingsTotal c2data none none none) ∧
     c2res.total_savings = (if c2data.savings_switch then
        specSavingsTotal c2data none none none +
          max 0 (specIncomeTotal c2data none none none -
            specExpenseTotal c2data none none none)
      else specSavingsTotal c2data none none none)) ∧
    c2res.balance = 700 ∧ c2res.total_savings = 700 := by
  refine ⟨rfl, balance_savings_switch_spec c2data none none none c2res rfl
    (by decide) (by decide) (by decide), ?_⟩
  norm_num +decide [c2res, c2data, defaultExpenseCats, defaultSavingsCats,
    calculate_totals, processCol, colStep, bump2, bump, bumpBucket, modifyAtKey,
    matchesFilter, lookupT, lookupV, lookupA, hasKeyA, bucketTotal,
    incomeInitTotals, catInitTotals, setKeyA, dictFromKeys, IncomeEntry.item,
    CatEntry.item, Date.isoformat, weekKey, Date.isocalendar, Date.isoWeekNum,
    pad2, pad4, isoweek1monday, daysBeforeYear, daysBeforeMonth, daysInMonth,
    Date.toOrdinal, leapYear]

/-- C5 witness: on the concrete ledger the theorem applies, so each grand
total agrees with the sums of its per-day and per-week bucket totals. -/
theorem totals_agree_with_buckets_witness :
    calculate_totals c2data none none none = some c2res ∧
    ((lookupT c2res.income_totals = sumBucketTotals c2res.daily_income ∧
      lookupT c2res.income_totals = sumBucketTotals c2res.weekly_income) ∧
     (lookupT c2res.expense_totals = sumBucketTotals c2res.daily_expense ∧
      lookupT c2res.expense_totals = sumBucketTotals c2res.weekly_expense) ∧
     (lookupT c2res.savings_totals = sumBucketTotals c2res.daily_savings ∧
      lookupT c2res.savings_totals = sumBucketTotals c2res.weekly_savings)) :=
  ⟨rfl, totals_agree_with_buckets c2data none none none c2res rfl⟩

/-- C3 counterexample: the ledger's only entry is dated 2024-12-31, which
ISO-8601 places in ISO year 2025, week 1 — yet the `(2025, 1)` week filter
EXCLUDES it (total 0, no week bucket), because the filter compares the
entry's calendar year, not its ISO year, with the requested year. -/
theorem week_filter_iso_year_counterexample :
    Date.isocalendar ⟨2024, 12, 31⟩ = (2025, 1, 2) ∧
    c3entry.date = ⟨2024, 12, 31⟩ ∧ c3entry.amount = 500 ∧
    c3data.income = [c3entry] ∧
    calculate_totals c3data none (some (2025, 1)) none = some c3res ∧
    lookupT c3res.income_totals = 0 ∧
    lookupA c3res.weekly_income "2025-W01" = none :=
  ⟨by decide, rfl, rfl, rfl, rfl, rfl, rfl⟩

/-- C3 witness: under the `(2024, 1)` filter (calendar year 2024, ISO week
number 1) the entry IS kept, and its 500 shows up in the week bucket keyed
`"2025-W01"` — the key from its own ISO calendar. -/
theorem week_filter_totals_and_buckets_witness :
    calculate_totals c3data none (some (2024, 1)) none = some c3resIncl ∧
    ((lookupT c3resIncl.income_totals =
        amountSum (weekFilteredItems (c3data.income.map IncomeEntry.item) 2024 1) ∧
      lookupT c3resIncl.expense_totals =
        amountSum (weekFilteredItems (c3data.expenses.map CatEntry.item) 2024 1) ∧
      lookupT c3resIncl.savings_totals =
        amountSum (weekFilteredItems (c3data.savings.map CatEntry.item) 2024 1)) ∧
     (weekBucketsMatch c3resIncl.weekly_income (c3data.income.map IncomeEntry.item) 2024 1 ∧
      weekBucketsMatch c3resIncl.weekly_expense (c3data.expenses.map CatEntry.item) 2024 1 ∧
      weekBucketsMatch c3resIncl.weekly_savings (c3data.savings.map CatEntry.item) 2024 1)) ∧
    lookupT c3resIncl.income_totals = 500 ∧
    bucketTotal c3resIncl.weekly_income "2025-W01" = 500 := by
  refine ⟨rfl, week_filter_totals_and_buckets c3data 2024 1 c3resIncl rfl
    (by decide) (by decide) (by decide), ?_⟩
  norm_num +decide [c3resIncl, c3data, c3entry, defaultExpenseCats, defaultSavingsCats,
    calculate_totals, processCol, colStep, bump2, bump, bumpBucket, modifyAtKey,
    matchesFilter, lookupT, lookupV, lookupA, hasKeyA, bucketTotal,
    incomeInitTotals, catInitTotals, setKeyA, dictFromKeys, IncomeEntry.item,
    CatEntry.item, Date.isoformat, weekKey, Date.isocalendar, Date.isoWeekNum,
    pad2, pad4, isoweek1monday, daysBeforeYear, daysBeforeMonth, daysInMonth,
    Date.toOrdinal, leapYear]

/-- C10 counterexample: an expense entry whose category (`"total"`) is
absent from the expense category list does NOT make the aggregation fail —
the totals dict happens to contain the reserved `"total"` key, so the
accumulation succeeds. -/
theorem category_absent_no_failure_counterexample :
    (¬ "total" ∈ c10data.expense_categories) ∧
    c10data.expenses = [c10entry] ∧ c10entry.category = "total" ∧
    (calculate_totals c10data none none none).isSome = true :=
  ⟨by decide, rfl, rfl, by decide⟩

/-- C7 counterexample: loading a document that lacks the `income` key
leaves it absent (only the four settings-like keys are migrated), while
`expense_categories` does get its default. -/
theorem load_data_income_left_absent_counterexample :
    (load_data (some emptyStored)).income = none ∧
    (load_data (some emptyStored)).expenses = none ∧
    (load_data (some emptyStored)).savings = none ∧
    (load_data (some emptyStored)).expense_categories = some defaultExpenseCats ∧
    (load_data (some emptyStored)).savings_categories = some defaultSavingsCats ∧
    (load_data (some emptyStored)).savings_switch = some false ∧
    (load_data (some emptyStored)).mpesa_details = some ⟨"", ""⟩ :=
  ⟨rfl, rfl, rfl, rfl, rfl, rfl, rfl⟩

/-- C7 (amended): loading an existing document populates exactly the four
keys of the migration list (`expense_categories`, `savings_categories`,
`savings_switch`, `mpesa_details`) with their defaults when missing,
leaves present values unchanged, and leaves the entry collections
(`income`, `expenses`, `savings`) exactly as stored — absent stays absent;
loading with no document returns the full fresh structure. -/
theorem load_data_migrates_settings_keys (d : StoredDoc) :
    (load_data (some d)).expense_categories =
      some (d.expense_categories.getD defaultExpenseCats) ∧
    (load_data (some d)).savings_categories =
      some (d.savings_categories.getD defaultSavingsCats) ∧
    (load_data (some d)).savings_switch = some (d.savings_switch.getD false) ∧
    (load_data (some d)).mpesa_details = some (d.mpesa_details.getD ⟨"", ""⟩) ∧
    (load_data (some d)).income = d.income ∧
    (load_data (some d)).expenses = d.expenses ∧
    (load_data (some d)).savings = d.savings ∧
    load_data none = ⟨some [], some [], some [], some defaultExpenseCats,
      some defaultSavingsCats, some false, some ⟨"", ""⟩⟩ :=
  ⟨rfl, rfl, rfl, rfl, rfl, rfl, rfl, rfl⟩

/-! ## Invariants of the add operations (C8) -/

lemma dateLe_of_not_lt {a b : Date} (h : dateLt a b = false) : dateLe b a = true := by
  obtain ⟨y1, m1, d1⟩ := a
  obtain ⟨y2, m2, d2⟩ := b
  simp only [dateLt, dateLe, Date.mk.injEq, Bool.or_eq_true, Bool.and_eq_true,
    decide_eq_true_eq, Bool.or_eq_false_iff, Bool.and_eq_false_iff,
    decide_eq_false_iff_not] at h ⊢
  omega

lemma parse_date_le {today : Date} {ds : String} {d : Date}
    (h : parse_date today ds = .ok d) : dateLe d today = true := by
  unfold parse_date at h
  generalize hA : (if matchYMD ds then strptimeYMD ds
    else if matchMD ds then strptimeYMD (toString today.year ++ "-" ++ ds)
    else strptimeYMD (toString today.year ++ "-" ++ pad2 today.month ++ "-" ++ ds)) =
      att at h
  cases att with
  | none => simp at h
  | some parsed =>
    change (if dateLt today parsed = true then Except.error PyErr.futureDate
      else Except.ok parsed) = Except.ok d at h
    by_cases hlt : dateLt today parsed = true
    · rw [if_pos hlt] at h; simp at h
    · rw [if_neg hlt] at h
      simp only [Except.ok.injEq] at h
      subst h
      exact dateLe_of_not_lt (by simpa using hlt)

lemma validate_amount_ok {a b : Rat} (h : validate_amount a = .ok b) :
    0 < b ∧ b = a := by
  unfold validate_amount at h
  by_cases hle : a ≤ 0
  · rw [if_pos hle] at h; simp at h
  · rw [if_neg hle] at h
    simp only [Except.ok.injEq] at h
    subst h
    exact ⟨not_le.mp hle, rfl⟩

lemma validate_amount_nonpos {a : Rat} (h : a ≤ 0) :
    validate_amount a = .error .invalidAmount := by
  unfold validate_amount
  rw [if_pos h]

/-- C8: every entry appended by `add_income` / `add_expense` /
`add_savings` has a strictly positive amount, a date not after today, and
an empty transaction code whenever its payment mode is not `"M-Pesa"`; the
returned ledger is the input ledger with exactly that entry appended to
the corresponding collection; a non-positive amount or an invalid/future
date makes the operation fail (no ledger is returned, so nothing is
appended). -/
theorem add_entry_invariants (today : Date) (data : Data)
    (date_str platform category : String) (amount : Rat)
    (notes payment_mode transaction_code : String) :
    (∀ d2 e, add_income today data date_str platform amount notes payment_mode
        transaction_code = .ok (d2, e) →
      0 < e.amount ∧ dateLe e.date today = true ∧
      (e.payment_mode ≠ "M-Pesa" → e.transaction_code = "") ∧
      d2.income = data.income ++ [e] ∧ d2.expenses = data.expenses ∧
      d2.savings = data.savings) ∧
    (∀ d2 e, add_expense today data date_str category amount notes payment_mode
        transaction_code = .ok (d2, e) →
      0 < e.amount ∧ dateLe e.date today = true ∧
      (e.payment_mode ≠ "M-Pesa" → e.transaction_code = "") ∧
      d2.expenses = data.expenses ++ [e] ∧ d2.income = data.income ∧
      d2.savings = data.savings) ∧
    (∀ d2 e, add_savings today data date_str category amount notes payment_mode
        transaction_code = .ok (d2, e) →
      0 < e.amount ∧ dateLe e.date today = true ∧
      (e.payment_mode ≠ "M-Pesa" → e.transaction_code = "") ∧
      d2.savings = data.savings ++ [e] ∧ d2.income = data.income ∧
      d2.expenses = data.expenses) ∧
    (amount ≤ 0 →
      (add_income today data date_str platform amount notes payment_mode
        transaction_code).isOk = false ∧
      (add_expense today data date_str category amount notes payment_mode
        transaction_code).isOk = false ∧
      (add_savings today data date_str category amount notes payment_mode
        transaction_code).isOk = false) ∧
    (∀ err, parse_date today date_str = .error err →
      (add_income today data date_str platform amount notes payment_mode
        transaction_code).isOk = false ∧
      (add_expense today data date_str category amount notes payment_mode
        transaction_code).isOk = false ∧
      (add_savings today data date_str category amount notes payment_mode
        transaction_code).isOk = false) := by
  refine ⟨?_, ?_, ?_, ?_, ?_⟩
  · intro d2 e h
    unfold add_income at h
    cases h1 : parse_date today date_str with
    | error e1 => rw [h1] at h; simp at h
    | ok date =>
      rw [h1] at h
      cases h2 : validate_platform platform with
      | error e2 => rw [h2] at h; simp at h
      | ok platform2 =>
        rw [h2] at h
        cases h3 : validate_amount amount with
        | error e3 => rw [h3] at h; simp at h
        | ok amount2 =>
          rw [h3] at h
          cases h4 : validate_payment_mode payment_mode with
          | error e4 => rw [h4] at h; simp at h
          | ok mode2 =>
            rw [h4] at h
            simp only [Except.ok.injEq, Prod.mk.injEq] at h
            obtain ⟨hd2, he⟩ := h
            subst hd2; subst he
            refine ⟨(validate_amount_ok h3).1, parse_date_le h1, ?_, by simp, rfl, rfl⟩
            intro hne
            simp only [if_neg hne]
  · intro d2 e h
    unfold add_expense at h
    cases h1 : parse_date today date_str with
    | error e1 => rw [h1] at h; simp at h
    | ok date =>
      rw [h1] at h
      cases h2 : validate_category category data.expense_categories with
      | error e2 => rw [h2] at h; simp at h
      | ok cat2 =>
        rw [h2] at h
        cases h3 : validate_amount amount with
        | error e3 => rw [h3] at h; simp at h
        | ok amount2 =>
          rw [h3] at h
          cases h4 : validate_payment_mode payment_mode with
          | error e4 => rw [h4] at h; simp at h
          | ok mode2 =>
            rw [h4] at h
            simp only [Except.ok.injEq, Prod.mk.injEq] at h
            obtain ⟨hd2, he⟩ := h
            subst hd2; subst he
            refine ⟨(validate_amount_ok h3).1, parse_date_le h1, ?_, by simp, rfl, rfl⟩
            intro hne
            simp only [if_neg hne]
  · intro d2 e h
    unfold add_savings at h
    cases h1 : parse_date today date_str with
    | error e1 => rw [h1] at h; simp at h
    | ok date =>
      rw [h1] at h
      cases h2 : validate_category category data.savings_categories with
      | error e2 => rw [h2] at h; simp at h
      | ok cat2 =>
        rw [h2] at h
        cases h3 : validate_amount amount with
        | error e3 => rw [h3] at h; simp at h
        | ok amount2 =>
          rw [h3] at h
          cases h4 : validate_payment_mode payment_mode with
          | error e4 => rw [h4] at h; simp at h
          | ok mode2 =>
            rw [h4] at h
            simp only [Except.ok.injEq, Prod.mk.injEq] at h
            obtain ⟨hd2, he⟩ := h
            subst hd2; subst he
            refine ⟨(validate_amount_ok h3).1, parse_date_le h1, ?_, by simp, rfl, rfl⟩
            intro hne
            simp only [if_neg hne]
  · intro hle
    have hva := validate_amount_nonpos hle
    refine ⟨?_, ?_, ?_⟩
    · unfold add_income
      cases h1 : parse_date today date_str with
      | error e1 => rfl
      | ok date =>
        cases h2 : validate_platform platform with
        | error e2 => rfl
        | ok p2 => rw [hva]; rfl
    · unfold add_expense
      cases h1 : parse_date today date_str with
      | error e1 => rfl
      | ok date =>
        cases h2 : validate_category category data.expense_categories with
        | error e2 => rfl
        | ok c2 => rw [hva]; rfl
    · unfold add_savings
      cases h1 : parse_date today date_str with
      | error e1 => rfl
      | ok date =>
        cases h2 : validate_category category data.savings_categories with
        | error e2 => rfl
        | ok c2 => rw [hva]; rfl
  · intro err herr
    refine ⟨?_, ?_, ?_⟩
    · unfold add_income
      rw [herr]
      rfl
    · unfold add_expense
      rw [herr]
      rfl
    · unfold add_savings
      rw [herr]
      rfl

/-- C8 witness: a concrete `add_income` call succeeds and the theorem
yields the entry invariant and the appended ledger for it. -/
theorem add_entry_invariants_witness :
    add_income c8today c2data "2025-01-02" "u" 50 "note" "cash" "Z1" =
      .ok (c8resI.1, c8resI.2) ∧
    (0 < c8resI.2.amount ∧ dateLe c8resI.2.date c8today = true ∧
      (c8resI.2.payment_mode ≠ "M-Pesa" → c8resI.2.transaction_code = "") ∧
      c8resI.1.income = c2data.income ++ [c8resI.2] ∧
      c8resI.1.expenses = c2data.expenses ∧ c8resI.1.savings = c2data.savings) :=
  ⟨rfl, (add_entry_invariants c8today c2data "2025-01-02" "u" "1" 50 "note" "cash"
    "Z1").1 c8resI.1 c8resI.2 rfl⟩

/-- C6 (code bug): the parser tries the templates in their fixed order and
uses the first match, classifies the `received` scenario message as an
income transaction with amount 1000, phone `+254712345678` and
post-balance 5000, and returns `ok none` (unparseable) when no template
matches — but a message matching the `paid` template is NOT classified as
an expense: the `paid` regex has only six capturing groups while the code
reads `group(7)`, so parsing raises `IndexError` (which propagates to the
caller and aborts the batch) even though the template itself matched. -/
theorem parse_first_template_and_paid_group_indexerror :
    parse_mpesa_message c6recvMsg = .ok (some c6trans) ∧
    c6trans.type = "income" ∧ c6trans.transaction_code = "ABC1" ∧
    c6trans.amount = 1000 ∧ c6trans.name = "JOHN DOE" ∧
    c6trans.phone = "+254712345678" ∧ c6trans.balance = 5000 ∧
    parse_mpesa_message "hello" = .ok none ∧
    (searchA paidPattern c6paidMsg.data).isSome = true ∧
    firstMatch patternsList c6paidMsg =
      some ("paid", ["XYZ9", "200", "SHELL STATION", "02/01/25", "1:05 PM",
        "4,800.00"]) ∧
    parse_mpesa_message c6paidMsg = .error PyErr.indexError := by
  refine ⟨rfl, rfl, rfl, by decide, rfl, rfl, ?_, rfl, by decide, by decide, rfl⟩
  have hb : c6trans.balance =
      ((5000 : Nat) : Rat) + (((0 : Nat) : Rat) / ((10 : Rat) ^ (2 : Nat))) := rfl
  rw [hb]
  norm_num

/-- C9 (code bug): batch processing passes the literal platform string
`"Offline"` to `add_income`, but `validate_platform` accepts only the
`PLATFORMS` menu codes (`"1"`, `"u"`, …, `"o"`), so `"Offline"` is
rejected; consequently a verified `received` message does not create an
income entry at all — the uncaught `invalidPlatform` error aborts the
batch with the ledger unchanged, so no income entry with platform
`"Offline"` (or any other platform) is ever recorded on this path. -/
theorem batch_income_platform_offline_invalid :
    validate_platform "Offline" = .error PyErr.invalidPlatform ∧
    c9t.type = "income" ∧ verify_mpesa_balance c9t c9d0 = true ∧
    process_mpesa_messages c8today c9d0 (fun _ => UncatChoice.skip) [c9msg] =
      ⟨c9d0, [], some PyErr.invalidPlatform⟩ := by
  have hparse : parse_mpesa_message c9msg = .ok (some c9t) := rfl
  have h1 : c9t.amount = ((1000 : Nat) : Rat) := rfl
  have h2 : c9t.balance =
      ((1000 : Nat) : Rat) + (((0 : Nat) : Rat) / ((10 : Rat) ^ (2 : Nat))) := rfl
  have h3 : c9t.type = "income" := rfl
  have hv : verify_mpesa_balance c9t c9d0 = true := by
    simp only [verify_mpesa_balance, calculate_mpesa_balance, c9d0, h1, h2, h3]
    norm_num
  have hadd : add_income c8today c9d0 c9t.date "Offline" c9t.amount
      ("From " ++ c9t.name) "M-Pesa" c9t.transaction_code =
      .error PyErr.invalidPlatform := rfl
  refine ⟨rfl, h3, hv, ?_⟩
  show processGo c8today c9d0 (fun _ => UncatChoice.skip) [c9msg] c9d0 [] =
    ⟨c9d0, [], some PyErr.invalidPlatform⟩
  simp [processGo, hparse, hv, h3, hadd]

/-- C4 (code bug): batch processing applies transactions one at a time in
message order and a balance-mismatched message is skipped (logged, not
appended) with processing continuing — but each verification is computed
against the stale batch-start snapshot, NOT against the ledger including
the prior applied transactions of the same batch: the second message here
verifies against the post-first-message ledger (`c4d1`) yet is reported
as a balance mismatch because the code checks it against the batch-start
snapshot (`c4d0`). -/
theorem stale_snapshot_balance_verification :
    process_mpesa_messages c8today c4d0 (fun _ => UncatChoice.skip)
      [c4m1, c4m2] =
      ⟨c4d1, [Outcome.addedExpense c4e1, Outcome.balanceMismatch "AAB2"], none⟩ ∧
    parse_mpesa_message c4m2 = .ok (some c4t2) ∧
    verify_mpesa_balance c4t2 c4d1 = true ∧
    verify_mpesa_balance c4t2 c4d0 = false := by
  have hparse1 : parse_mpesa_message c4m1 = .ok (some c4t1) := rfl
  have hparse2 : parse_mpesa_message c4m2 = .ok (some c4t2) := rfl
  have ht1a : c4t1.amount = ((200 : Nat) : Rat) := rfl
  have ht1b : c4t1.balance =
      ((800 : Nat) : Rat) + (((0 : Nat) : Rat) / ((10 : Rat) ^ (2 : Nat))) := rfl
  have ht1ty : c4t1.type = "expense" := rfl
  have ht2a : c4t2.amount = ((300 : Nat) : Rat) := rfl
  have ht2b : c4t2.balance =
      ((500 : Nat) : Rat) + (((0 : Nat) : Rat) / ((10 : Rat) ^ (2 : Nat))) := rfl
  have ht2ty : c4t2.type = "expense" := rfl
  have he1a : c4e1.amount = ((200 : Nat) : Rat) := ht1a
  have he1m : c4e1.payment_mode = "M-Pesa" := rfl
  have hv1 : verify_mpesa_balance c4t1 c4d0 = true := by
    simp only [verify_mpesa_balance, calculate_mpesa_balance, c4d0, ht1a, ht1b, ht1ty]
    rw [if_neg (by decide : ("expense" = "income") → False)]
    norm_num
  have hv2 : verify_mpesa_balance c4t2 c4d0 = false := by
    simp only [verify_mpesa_balance, calculate_mpesa_balance, c4d0, ht2a, ht2b, ht2ty]
    rw [if_neg (by decide : ("expense" = "income") → False)]
    norm_num
  have hv2f : verify_mpesa_balance c4t2 c4d1 = true := by
    simp only [verify_mpesa_balance, calculate_mpesa_balance, c4d1, c4d0, ht2a, ht2b,
      ht2ty, he1a, he1m]
    rw [if_neg (by decide : ("expense" = "income") → False)]
    norm_num [c4e1, ht1a]
  have hsmart1 : smart_categorize c4t1.name = some "Fuel" := rfl
  have htc2 : c4t2.transaction_code = "AAB2" := rfl
  have hmem : ("Fuel" ∈ c4d0.expense_categories) = True := by
    simp [c4d0, defaultExpenseCats]
  have hadd1 : add_expense c8today c4d0 c4t1.date "Fuel" c4t1.amount
      ("To " ++ c4t1.name) "M-Pesa" c4t1.transaction_code = .ok (c4d1, c4e1) := rfl
  refine ⟨?_, hparse2, hv2f, hv2⟩
  show processGo c8today c4d0 (fun _ => UncatChoice.skip) [c4m1, c4m2] c4d0 [] =
    ⟨c4d1, [Outcome.addedExpense c4e1, Outcome.balanceMismatch "AAB2"], none⟩
  simp [processGo, hparse1, hparse2, hv1, hv2, ht1ty, ht2ty, hsmart1, hmem, hadd1, htc2]

end Boda
